import Mathlib

/-!
Shallow embedding of the Black Friday arcade game core (src/src/lib.rs) and
proofs about it.  The f64 quantities of the source are modelled as rationals
(every tuning constant is exact in ℚ, and no claim depends on rounding).  The
thread-local random number generator is modelled as an explicit oracle of
pre-drawn values.  localStorage persistence (save_leaderboard /
load_leaderboard) is external I/O whose stored copy mirrors the in-memory
list, so it is modelled as the identity on the in-memory leaderboard.
-/

namespace BlackFriday

/-! Constants, lib.rs lines 10-22. -/

def CANVAS_WIDTH : ℚ := 330

def CANVAS_HEIGHT : ℚ := 250

def PLAYER_WIDTH : ℚ := 30

def PLAYER_HEIGHT : ℚ := 30

def PLAYER_SPEED : ℚ := 3

def OBJECT_WIDTH : ℚ := 20

def OBJECT_HEIGHT : ℚ := 20

def OBJECT_SPEED : ℚ := 3

def BASE_SPAWN_INTERVAL : ℚ := 45

/-- ObjectType, lib.rs 24-28. -/
inductive ObjectType where
  | GoodDeal
  | BadItem
deriving DecidableEq

/-- FallingObject, lib.rs 30-35. -/
structure FallingObject where
  x : ℚ
  y : ℚ
  obj_type : ObjectType
deriving DecidableEq

/-- Player, lib.rs 37-40. -/
structure Player where
  x : ℚ
  y : ℚ
deriving DecidableEq

/-- PlayerSlot, lib.rs 42-47. -/
structure PlayerSlot where
  player : Player
  score : ℤ
  health : ℤ
  player_index : ℕ
deriving DecidableEq

/-- PlayerSlot::new, lib.rs 50-63. -/
def PlayerSlot.new (index : ℕ) (total_players : ℕ) : PlayerSlot :=
  let spacing := CANVAS_WIDTH / ((total_players : ℚ) + 1)
  let target_center := spacing * ((index : ℚ) + 1)
  { player := { x := target_center - PLAYER_WIDTH / 2
                y := CANVAS_HEIGHT - PLAYER_HEIGHT - 20 }
    score := 0
    health := 3
    player_index := index }

/-- PlayerMode, lib.rs 65-69. -/
inductive PlayerMode where
  | Single
  | Two
deriving DecidableEq

/-- PlayerMode::player_count, lib.rs 71-78. -/
def PlayerMode.player_count : PlayerMode → ℕ
  | .Single => 1
  | .Two => 2

/-- GamePhase, lib.rs 80-86. -/
inductive GamePhase where
  | ModeSelect
  | Playing
  | GameOver
  | NameEntry
deriving DecidableEq

/-- LeaderboardEntry, lib.rs 88-92; the name is a list of characters. -/
structure LeaderboardEntry where
  score : ℤ
  mode : PlayerMode
  name : List Char
deriving DecidableEq

/-- InputSnapshot, lib.rs 181-193 (after keyboard/controller OR-merge). -/
structure InputSnapshot where
  system_one_player : Bool
  system_two_player : Bool
  player1_left : Bool
  player1_right : Bool
  player1_up : Bool
  player1_down : Bool
  player1_a : Bool
  player2_left : Bool
  player2_right : Bool
  player2_a : Bool
deriving DecidableEq

/-- Oracle for rand::thread_rng draws.  xDraw k and goodDraw k are the two
draws of the k-th spawn_object call in a tick (gen_range for x, gen_bool for
the type); extraDraw it is the gen_bool(0.25) extra-spawn draw of loop
iteration it.  The probability parameters themselves are erased by this
abstraction. -/
structure Rng where
  xDraw : ℕ → ℚ
  goodDraw : ℕ → Bool
  extraDraw : ℕ → Bool

/-- GameState, lib.rs 94-116 (controller handle omitted: external). -/
structure GameState where
  players : List PlayerSlot
  objects : List FallingObject
  frame_count : ℕ
  difficulty_multiplier : ℚ
  spawn_meter : ℚ
  mode : PlayerMode
  phase : GamePhase
  menu_selection : PlayerMode
  last_system_one_player : Bool
  last_system_two_player : Bool
  last_confirm : Bool
  last_up : Bool
  last_down : Bool
  last_left : Bool
  last_right : Bool
  final_scores : List (ℕ × ℤ)
  leaderboard : List LeaderboardEntry
  pending_scores : List (ℕ × ℤ)
  current_name : List Char
  name_entry_index : ℕ
deriving DecidableEq

/-! Leaderboard, lib.rs 358-368. -/

/-- One step of stable insertion sort, descending by score: the inserted
element passes over strictly greater scores and stops in front of equal or
smaller ones.  Used by sortDesc, where the inserted element comes from
earlier in the input than everything in the sorted tail, so stopping at ties
preserves the input order of equal scores. -/
def insertDesc (e : LeaderboardEntry) : List LeaderboardEntry → List LeaderboardEntry
  | [] => [e]
  | x :: xs => if e.score < x.score then x :: insertDesc e xs else e :: x :: xs

/-- Stable sort, descending by score.  Vec::sort_by (lib.rs 362) is a stable
sort, and a stable sort is uniquely determined by the comparator, so stable
insertion sort is an exact model of it. -/
def sortDesc (l : List LeaderboardEntry) : List LeaderboardEntry :=
  l.foldr insertDesc []

/-- GameState::add_to_leaderboard (lib.rs 358-368) at the list level: push the
entry, stable-sort descending by score, truncate to 10 (truncate is the
identity at length at most 10, so it is List.take 10); save_leaderboard is
external I/O. -/
def addEntryList (l : List LeaderboardEntry) (e : LeaderboardEntry) : List LeaderboardEntry :=
  (sortDesc (l ++ [e])).take 10

/-- GameState::add_to_leaderboard, lib.rs 358-368. -/
def GameState.add_to_leaderboard (g : GameState) (score : ℤ) (mode : PlayerMode)
    (name : List Char) : GameState :=
  { g with leaderboard := addEntryList g.leaderboard ⟨score, mode, name⟩ }

/-! Round lifecycle, lib.rs 257-283 and 370-381. -/

/-- GameState::reset_runtime, lib.rs 257-266. -/
def GameState.reset_runtime (g : GameState) : GameState :=
  { g with objects := [], frame_count := 0, difficulty_multiplier := 1, spawn_meter := 0,
           final_scores := [], pending_scores := [], current_name := [], name_entry_index := 0 }

/-- GameState::start_new_game, lib.rs 268-275. -/
def GameState.start_new_game (g : GameState) (mode : PlayerMode) : GameState :=
  let g1 := g.reset_runtime
  { g1 with mode := mode
            players := (List.range mode.player_count).map
              (fun idx => PlayerSlot.new idx mode.player_count)
            phase := GamePhase.Playing }

/-- GameState::back_to_menu, lib.rs 277-283.  load_leaderboard re-reads the
persisted copy, which mirrors the in-memory list, so it is the identity on
the leaderboard field here. -/
def GameState.back_to_menu (g : GameState) : GameState :=
  { g.reset_runtime with players := [], phase := GamePhase.ModeSelect,
                         menu_selection := PlayerMode.Single }

/-- GameState::start_name_entry, lib.rs 370-381. -/
def GameState.start_name_entry (g : GameState) : GameState :=
  let g1 := { g with pending_scores := g.final_scores }
  if g1.pending_scores = [] then { g1 with phase := GamePhase.GameOver }
  else { g1 with name_entry_index := 0, current_name := ['A', 'A', 'A'],
                 phase := GamePhase.NameEntry }

/-! Name entry, lib.rs 383-452. -/

/-- char::from_u32(n).unwrap_or(dflt), lib.rs 400 and 411. -/
def charFromU32 (n : ℕ) (dflt : Char) : Char :=
  if n.isValidChar then Char.ofNat n else dflt

/-- The up branch letter step, lib.rs 397-401: wrap A to Z, otherwise the
u32 arithmetic current - 1 (wrapping, as u32 subtraction does) fed back
through char::from_u32. -/
def prevLetterChar (c : Char) : Char :=
  if c = 'A' then 'Z' else charFromU32 ((c.toNat + (2 ^ 32 - 1)) % 2 ^ 32) 'A'

/-- The down branch letter step, lib.rs 408-412. -/
def nextLetterChar (c : Char) : Char :=
  if c = 'Z' then 'A' else charFromU32 ((c.toNat + 1) % 2 ^ 32) 'Z'

/-- The padding loop of lib.rs 385-387: push A until the name has length 3. -/
def padName (l : List Char) : List Char :=
  l ++ List.replicate (3 - l.length) 'A'

/-- The letter edits of handle_name_entry (lib.rs 385-417 and the take(3) of
line 431): pad the name, then apply the up edge and the down edge at the
cursor position. -/
def nameAfterNav (g : GameState) (inputs : InputSnapshot) : List Char :=
  let name_chars := (padName g.current_name).take 3
  let cursor_pos := min (g.name_entry_index % 3) 2
  let name_chars :=
    if inputs.player1_up && !g.last_up then
      let current := (name_chars.get? cursor_pos).getD 'A'
      let new_char := prevLetterChar current
      if cursor_pos < name_chars.length then name_chars.set cursor_pos new_char else name_chars
    else name_chars
  let name_chars :=
    if inputs.player1_down && !g.last_down then
      let current := (name_chars.get? cursor_pos).getD 'A'
      let new_char := nextLetterChar current
      if cursor_pos < name_chars.length then name_chars.set cursor_pos new_char else name_chars
    else name_chars
  name_chars.take 3

/-- The cursor movement of handle_name_entry, lib.rs 418-428: a left edge
moves down clamped at 0, then a right edge moves up clamped at 2. -/
def cursorAfterNav (g : GameState) (inputs : InputSnapshot) : ℕ :=
  let idx :=
    if inputs.player1_left && !g.last_left then
      if 0 < g.name_entry_index then g.name_entry_index - 1 else g.name_entry_index
    else g.name_entry_index
  if inputs.player1_right && !g.last_right then
    if idx < 2 then idx + 1 else idx
  else idx

/-- The level-triggered confirm commit of handle_name_entry, lib.rs 433-446:
checked every tick the button is held, with no edge test. -/
def confirmStep (g : GameState) (inputs : InputSnapshot) : GameState :=
  if inputs.player1_a then
    match g.pending_scores with
    | (_, score) :: rest =>
      let g3 := g.add_to_leaderboard score g.mode g.current_name
      let g4 := { g3 with pending_scores := rest }
      if rest = [] then { g4 with phase := GamePhase.GameOver }
      else { g4 with current_name := ['A', 'A', 'A'], name_entry_index := 0 }
    | [] => g
  else g

/-- GameState::handle_name_entry, lib.rs 383-452: navigation edits, then the
confirm commit on the edited state, then the previous-input bookkeeping. -/
def GameState.handle_name_entry (g : GameState) (inputs : InputSnapshot) : GameState :=
  let g1 := { g with current_name := nameAfterNav g inputs
                     name_entry_index := cursorAfterNav g inputs }
  let g2 := confirmStep g1 inputs
  { g2 with last_up := inputs.player1_up, last_down := inputs.player1_down,
            last_left := inputs.player1_left, last_right := inputs.player1_right }

/-! Spawning and the difficulty scheduler, lib.rs 459-526. -/

/-- GameState::spawn_object (lib.rs 504-526), its two random draws taken from
the oracle at spawn index k. -/
def GameState.spawn_object (g : GameState) (rng : Rng) (k : ℕ) : GameState :=
  { g with objects := g.objects ++
      [{ x := rng.xDraw k, y := -OBJECT_HEIGHT,
         obj_type := if rng.goodDraw k then ObjectType.GoodDeal else ObjectType.BadItem }] }

/-- The while loop of lib.rs 478-489.  fuel only bounds the recursion: the
caller passes fuel strictly greater than spawn_meter / 10 and the interval is
at least 10, so the guard and never the fuel ends the loop (spawnLoop_spec
below makes this exact).  k numbers the spawn draws within the tick and it
numbers the loop iterations for the extra draw. -/
def spawnLoop (rng : Rng) (interval : ℚ) : ℕ → GameState → ℕ → ℕ → GameState
  | 0, g, _, _ => g
  | fuel + 1, g, k, it =>
    if interval ≤ g.spawn_meter then
      let g1 := GameState.spawn_object { g with spawn_meter := g.spawn_meter - interval } rng k
      if 2 ≤ g.difficulty_multiplier ∧ rng.extraDraw it = true then
        spawnLoop rng interval fuel (g1.spawn_object rng (k + 1)) (k + 2) (it + 1)
      else
        spawnLoop rng interval fuel g1 (k + 1) (it + 1)
    else g

/-- The effective interval of lib.rs 476: (BASE_SPAWN_INTERVAL / d).max(10.0),
with f64 max written as an explicit comparison. -/
def effectiveInterval (d : ℚ) : ℚ :=
  if BASE_SPAWN_INTERVAL / d < 10 then 10 else BASE_SPAWN_INTERVAL / d

/-- Fuel handed to spawnLoop: one more than the numerator of the meter, which
is strictly greater than meter / 10 because the interval is at least 10
(spawnFuel_adequate below). -/
def spawnFuel (m : ℚ) : ℕ := m.num.toNat + 1

/-- Lines 459-489 of GameState::update: frame counter, difficulty ramp every
600th frame, spawn meter fill, and the spawn loop. -/
def GameState.advanceSched (g : GameState) (rng : Rng) : GameState :=
  let g1 := { g with frame_count := g.frame_count + 1 }
  let g2 := if g1.frame_count % 600 = 0
    then { g1 with difficulty_multiplier := g1.difficulty_multiplier + 0.2 } else g1
  let g3 := { g2 with spawn_meter := g2.spawn_meter + 1 * g2.difficulty_multiplier }
  spawnLoop rng (effectiveInterval g3.difficulty_multiplier) (spawnFuel g3.spawn_meter) g3 0 0

/-! Collisions, lib.rs 528-594. -/

/-- The axis-aligned overlap test of lib.rs 552-555. -/
def overlaps (s : PlayerSlot) (o : FallingObject) : Prop :=
  s.player.x < o.x + OBJECT_WIDTH ∧ s.player.x + PLAYER_WIDTH > o.x ∧
  s.player.y < o.y + OBJECT_HEIGHT ∧ s.player.y + PLAYER_HEIGHT > o.y

instance instDecidableOverlaps (s : PlayerSlot) (o : FallingObject) : Decidable (overlaps s o) := by
  unfold overlaps
  infer_instance

/-- The effect of an object on the slot it hits, lib.rs 557-567. -/
def hitPlayer (o : FallingObject) (s : PlayerSlot) : PlayerSlot :=
  match o.obj_type with
  | ObjectType.GoodDeal => { s with score := s.score + 10 }
  | ObjectType.BadItem =>
    let h := s.health - 1
    { s with health := if h < 0 then 0 else h }

/-- The inner player loop of lib.rs 541-571: skip dead slots, apply the object
to the first living overlapping slot and stop; the Bool records whether the
object hit (its index would be pushed onto to_remove). -/
def applyObject (o : FallingObject) : List PlayerSlot → List PlayerSlot × Bool
  | [] => ([], false)
  | s :: rest =>
    if s.health ≤ 0 then
      let r := applyObject o rest
      (s :: r.1, r.2)
    else if overlaps s o then
      (hitPlayer o s :: rest, true)
    else
      let r := applyObject o rest
      (s :: r.1, r.2)

/-- The outer object loop of lib.rs 535-572: objects in index order, each
applied to the evolving player list; returns the final players and the
per-object hit flags. -/
def scanObjects : List FallingObject → List PlayerSlot → List PlayerSlot × List Bool
  | [], ps => (ps, [])
  | o :: os, ps =>
    let r := applyObject o ps
    let rs := scanObjects os r.1
    (rs.1, r.2 :: rs.2)

/-- Removal of the hit objects, lib.rs 574-576.  to_remove holds strictly
increasing indices (one per flagged object) and removing them in reverse
order keeps exactly the unflagged objects, i.e. this filter. -/
def removeFlagged (objs : List FallingObject) (flags : List Bool) : List FallingObject :=
  ((objs.zip flags).filter (fun p => !p.2)).map (fun p => p.1)

/-- The collision scan plus removal of consumed objects, lib.rs 533-576. -/
def consumeStep (g : GameState) : GameState :=
  let scanned := scanObjects g.objects g.players
  { g with players := scanned.1, objects := removeFlagged g.objects scanned.2 }

/-- Archival of (player_index, score) of dead players and their removal from
the roster, lib.rs 578-588. -/
def deadStep (g : GameState) : GameState :=
  { g with final_scores := g.final_scores ++
      (g.players.filter (fun s => decide (s.health ≤ 0))).map (fun s => (s.player_index, s.score))
           players := g.players.filter (fun s => decide (0 < s.health)) }

/-- The round-over check, lib.rs 590-593. -/
def signalStep (g : GameState) : GameState :=
  if g.players = [] ∧ g.phase = GamePhase.Playing then g.start_name_entry else g

/-- GameState::check_collisions, lib.rs 528-594. -/
def GameState.check_collisions (g : GameState) : GameState :=
  if g.players = [] then g
  else signalStep (deadStep (consumeStep g))

/-- Removal of off-screen objects, lib.rs 500-501. -/
def offscreenStep (g : GameState) : GameState :=
  { g with objects := g.objects.filter (fun o => decide (o.y < CANVAS_HEIGHT)) }

/-- The object fall of lib.rs 491-495: every object advances by
OBJECT_SPEED times the current difficulty multiplier. -/
def fallStep (g : GameState) : GameState :=
  { g with objects :=
      g.objects.map (fun (o : FallingObject) =>
        { o with y := o.y + OBJECT_SPEED * g.difficulty_multiplier }) }

/-- GameState::update, lib.rs 454-502. -/
def GameState.update (g : GameState) (rng : Rng) : GameState :=
  if g.phase ≠ GamePhase.Playing then g
  else offscreenStep (fallStep (g.advanceSched rng)).check_collisions

/-! Movement, lib.rs 596-611. -/

/-- The clamped move of one slot, lib.rs 603-609. -/
def moveSlot (s : PlayerSlot) (dx : ℚ) : PlayerSlot :=
  let x1 := s.player.x + dx * PLAYER_SPEED
  let x2 := if x1 < 0 then 0 else x1
  let x3 := if CANVAS_WIDTH - PLAYER_WIDTH < x2 then CANVAS_WIDTH - PLAYER_WIDTH else x2
  { s with player := { s.player with x := x3 } }

/-- iter_mut().find of lib.rs 598-601: only the first slot whose stable
player_index matches and whose health is positive is moved. -/
def movePlayers : List PlayerSlot → ℕ → ℚ → List PlayerSlot
  | [], _, _ => []
  | s :: rest, idx, dx =>
    if s.player_index = idx ∧ 0 < s.health then moveSlot s dx :: rest
    else s :: movePlayers rest idx dx

/-- GameState::move_player, lib.rs 596-611. -/
def GameState.move_player (g : GameState) (idx : ℕ) (dx : ℚ) : GameState :=
  { g with players := movePlayers g.players idx dx }

/-! The per-frame callback, lib.rs 882-961. -/

/-- One animation-frame callback (lib.rs 882-961): phase dispatch on the
merged input snapshot, previous-input bookkeeping, then GameState::update. -/
def tick (g : GameState) (inputs : InputSnapshot) (rng : Rng) : GameState :=
  let confirm_now := inputs.player1_a || inputs.player2_a
  let sys1_now := inputs.system_one_player
  let sys2_now := inputs.system_two_player
  let g1 :=
    match g.phase with
    | GamePhase.ModeSelect =>
      let ga := if inputs.player1_left || inputs.player2_left
        then { g with menu_selection := PlayerMode.Single } else g
      let gb := if inputs.player1_right || inputs.player2_right
        then { ga with menu_selection := PlayerMode.Two } else ga
      if sys2_now && !g.last_system_two_player then gb.start_new_game PlayerMode.Two
      else if sys1_now && !g.last_system_one_player then gb.start_new_game PlayerMode.Single
      else if confirm_now && !g.last_confirm then gb.start_new_game gb.menu_selection
      else gb
    | GamePhase.GameOver =>
      if sys2_now && !g.last_system_two_player then g.start_new_game PlayerMode.Two
      else if sys1_now && !g.last_system_one_player then g.start_new_game PlayerMode.Single
      else if confirm_now && !g.last_confirm then g.back_to_menu
      else g
    | GamePhase.Playing =>
      let ga := if inputs.player1_left then g.move_player 0 (-1) else g
      let gb := if inputs.player1_right then ga.move_player 0 1 else ga
      if gb.mode = PlayerMode.Two then
        let gc := if inputs.player2_left then gb.move_player 1 (-1) else gb
        if inputs.player2_right then gc.move_player 1 1 else gc
      else gb
    | GamePhase.NameEntry => g.handle_name_entry inputs
  let g2 := { g1 with last_system_one_player := sys1_now,
                      last_system_two_player := sys2_now,
                      last_confirm := confirm_now }
  g2.update rng

/-- Iterated ticks with a fixed input snapshot and oracle. -/
def tickN (inputs : InputSnapshot) (rng : Rng) : ℕ → GameState → GameState
  | 0, g => g
  | n + 1, g => tickN inputs rng n (tick g inputs rng)

/-- The all-false input snapshot. -/
def noInput : InputSnapshot :=
  ⟨false, false, false, false, false, false, false, false, false, false⟩

/-- A trivial oracle. -/
def trivRng : Rng := ⟨fun _ => 0, fun _ => false, fun _ => false⟩

/-! Leaderboard lemmas. -/

/-- The ordering invariant of the leaderboard: descending by score. -/
def SortedDesc (l : List LeaderboardEntry) : Prop :=
  l.Pairwise (fun a b => b.score ≤ a.score)

/-- Insertion of a new entry after every existing entry of greater or equal
score: the spec's tie rule, under which ties keep insertion order and the
newest entry lands after its equal scores. -/
def insertAfterGE (e : LeaderboardEntry) : List LeaderboardEntry → List LeaderboardEntry
  | [] => [e]
  | x :: xs => if e.score ≤ x.score then x :: insertAfterGE e xs else e :: x :: xs

/-- Cumulative application of add_to_leaderboard to a list of entries,
starting from an empty leaderboard. -/
def addSeq (es : List LeaderboardEntry) : List LeaderboardEntry :=
  es.foldl addEntryList []

/-- Number of successful extra-spawn draws across n loop iterations starting
at iteration it. -/
def extraCount (rng : Rng) : ℕ → ℕ → ℕ
  | _, 0 => 0
  | it, n + 1 => (if rng.extraDraw it = true then 1 else 0) + extraCount rng (it + 1) n

/-- The difficulty multiplier after the ramp check of lib.rs 465-467. -/
def bumpedDifficulty (g : GameState) : ℚ :=
  if (g.frame_count + 1) % 600 = 0 then g.difficulty_multiplier + 0.2
  else g.difficulty_multiplier

/-- A concrete one-player Playing state used by several witnesses: the single
slot is about to be hit by one bad item. -/
def demoPlaying : GameState :=
  { players := [{ player := { x := 150, y := 200 }, score := 0, health := 1, player_index := 0 }]
    objects := [{ x := 150, y := 200, obj_type := ObjectType.BadItem }]
    frame_count := 0
    difficulty_multiplier := 1
    spawn_meter := 0
    mode := PlayerMode.Single
    phase := GamePhase.Playing
    menu_selection := PlayerMode.Single
    last_system_one_player := false
    last_system_two_player := false
    last_confirm := false
    last_up := false
    last_down := false
    last_left := false
    last_right := false
    final_scores := []
    leaderboard := []
    pending_scores := []
    current_name := []
    name_entry_index := 0 }

/-- The roster invariant on a player list: every slot has positive health
and an x position inside the playfield. -/
def InvP (ps : List PlayerSlot) : Prop :=
  ∀ s ∈ ps, 0 < s.health ∧ 0 ≤ s.player.x ∧ s.player.x ≤ CANVAS_WIDTH - PLAYER_WIDTH

/-- The roster invariant of a game state. -/
def Inv (g : GameState) : Prop :=
  InvP g.players

/-! Shared concrete inputs and states for counterexamples and witnesses. -/

def inpUp : InputSnapshot := { noInput with player1_up := true }

def inpDown : InputSnapshot := { noInput with player1_down := true }

def inpLeft : InputSnapshot := { noInput with player1_left := true }

def inpRight : InputSnapshot := { noInput with player1_right := true }

def inpConfirm : InputSnapshot := { noInput with player1_a := true }

def inpSys1 : InputSnapshot := { noInput with system_one_player := true }

def inpSys2 : InputSnapshot := { noInput with system_two_player := true }

def inpLeftRight : InputSnapshot := { noInput with player1_left := true, player1_right := true }

def inpP2Confirm : InputSnapshot := { noInput with player2_a := true }

/-- A concrete NameEntry state: two pending scores, default name, empty
leaderboard, no button held on the previous tick. -/
def demoNameEntry : GameState :=
  { players := [], objects := [], frame_count := 0, difficulty_multiplier := 1, spawn_meter := 0,
    mode := PlayerMode.Single, phase := GamePhase.NameEntry, menu_selection := PlayerMode.Single,
    last_system_one_player := false, last_system_two_player := false, last_confirm := false,
    last_up := false, last_down := false, last_left := false, last_right := false,
    final_scores := [(0, 100), (1, 50)], leaderboard := [],
    pending_scores := [(0, 100), (1, 50)], current_name := ['A', 'A', 'A'],
    name_entry_index := 0 }

/-- A concrete NameEntry state with a single pending score of 100. -/
def demoEntryOne : GameState :=
  { demoNameEntry with pending_scores := [(0, 100)], final_scores := [(0, 100)] }

/-- A concrete ModeSelect state. -/
def demoMenu : GameState :=
  { demoNameEntry with phase := GamePhase.ModeSelect, pending_scores := [], final_scores := [] }

/-- A concrete GameOver state. -/
def demoOver : GameState := { demoMenu with phase := GamePhase.GameOver }

theorem insertDesc_perm (e : LeaderboardEntry) (l : List LeaderboardEntry) :
    List.Perm (insertDesc e l) (e :: l) := by
  induction l with
  | nil => exact List.Perm.refl _
  | cons x xs ih =>
    by_cases h : e.score < x.score
    · simpa [insertDesc, h] using ((ih.cons x).trans (List.Perm.swap e x xs))
    · simp [insertDesc, h]

theorem sortDesc_perm (l : List LeaderboardEntry) : List.Perm (sortDesc l) l := by
  induction l with
  | nil => exact List.Perm.refl _
  | cons x xs ih =>
    exact (insertDesc_perm x (sortDesc xs)).trans (ih.cons x)

theorem insertDesc_sorted {l : List LeaderboardEntry} (e : LeaderboardEntry)
    (h : SortedDesc l) : SortedDesc (insertDesc e l) := by
  induction l with
  | nil => simp [insertDesc, SortedDesc]
  | cons x xs ih =>
    rcases (List.pairwise_cons.mp h) with ⟨hx, hxs⟩
    by_cases hc : e.score < x.score
    · have hs : SortedDesc (insertDesc e xs) := ih hxs
      have hmem : ∀ y ∈ insertDesc e xs, y.score ≤ x.score := by
        intro y hy
        have hy2 : y ∈ e :: xs := (insertDesc_perm e xs).mem_iff.mp hy
        rcases List.mem_cons.mp hy2 with h1 | h1
        · exact le_of_lt (h1 ▸ hc)
        · exact hx y h1
      simpa [insertDesc, hc, SortedDesc] using List.pairwise_cons.mpr ⟨hmem, hs⟩
    · have hmem : ∀ y ∈ x :: xs, y.score ≤ e.score := by
        intro y hy
        rcases List.mem_cons.mp hy with hy | hy
        · exact hy ▸ le_of_not_lt hc
        · exact le_trans (hx y hy) (le_of_not_lt hc)
      simpa [insertDesc, hc, SortedDesc] using List.pairwise_cons.mpr ⟨hmem, h⟩

theorem sortDesc_sorted (l : List LeaderboardEntry) : SortedDesc (sortDesc l) := by
  induction l with
  | nil => simp [sortDesc, SortedDesc]
  | cons x xs ih => exact insertDesc_sorted x ih

theorem insertDesc_of_forall_le {l : List LeaderboardEntry} {x : LeaderboardEntry}
    (h : ∀ y ∈ l, y.score ≤ x.score) : insertDesc x l = x :: l := by
  cases l with
  | nil => rfl
  | cons y ys =>
    have : ¬ x.score < y.score := not_lt_of_le (h y (List.mem_cons_self y ys))
    simp [insertDesc, this]

theorem insertAfterGE_of_forall_lt {l : List LeaderboardEntry} {e : LeaderboardEntry}
    (h : ∀ y ∈ l, y.score < e.score) : insertAfterGE e l = e :: l := by
  cases l with
  | nil => rfl
  | cons y ys =>
    have : ¬ e.score ≤ y.score := not_le_of_lt (h y (List.mem_cons_self y ys))
    simp [insertAfterGE, this]

/-- On an already sorted list, pushing a new entry and stable-sorting is the
same as inserting the new entry after all entries of greater or equal score:
the newest entry goes after its ties. -/
theorem sortDesc_append_singleton {l : List LeaderboardEntry} (e : LeaderboardEntry)
    (h : SortedDesc l) : sortDesc (l ++ [e]) = insertAfterGE e l := by
  induction l with
  | nil => rfl
  | cons x xs ih =>
    rcases (List.pairwise_cons.mp h) with ⟨hx, hxs⟩
    have hrec : sortDesc ((x :: xs) ++ [e]) = insertDesc x (insertAfterGE e xs) := by
      simp only [List.cons_append, sortDesc, List.foldr_cons]
      rw [show List.foldr insertDesc [] (xs ++ [e]) = sortDesc (xs ++ [e]) from rfl, ih hxs]
    rw [hrec]
    by_cases he : e.score ≤ x.score
    · have hhead : insertDesc x (insertAfterGE e xs) = x :: insertAfterGE e xs := by
        cases xs with
        | nil => simp [insertAfterGE, insertDesc, not_lt_of_le he]
        | cons y ys =>
          have hyx : y.score ≤ x.score := hx y (List.mem_cons_self y ys)
          by_cases hey : e.score ≤ y.score
          · simp [insertAfterGE, hey, insertDesc, not_lt_of_le hyx]
          · simp [insertAfterGE, hey, insertDesc, not_lt_of_le he]
      rw [hhead, insertAfterGE]
      simp [he]
    · have hx' : ∀ y ∈ xs, y.score < e.score := by
        intro y hy
        exact lt_of_le_of_lt (hx y hy) (lt_of_not_le he)
      rw [insertAfterGE_of_forall_lt hx']
      have : insertDesc x (e :: xs) = e :: insertDesc x xs := by
        simp [insertDesc, lt_of_not_le he]
      rw [this, insertDesc_of_forall_le hx, insertAfterGE]
      simp [he]

theorem addEntryList_sorted (l : List LeaderboardEntry) (e : LeaderboardEntry) :
    SortedDesc (addEntryList l e) :=
  List.Pairwise.sublist (List.take_sublist _ _) (sortDesc_sorted _)

theorem addEntryList_length (l : List LeaderboardEntry) (e : LeaderboardEntry) :
    (addEntryList l e).length ≤ 10 := by
  simp [addEntryList]

theorem addEntryList_subperm (l : List LeaderboardEntry) (e : LeaderboardEntry) :
    List.Subperm (addEntryList l e) (l ++ [e]) :=
  ((List.take_sublist _ _).subperm).trans (sortDesc_perm _).subperm


theorem foldl_addEntryList_sorted (es : List LeaderboardEntry) :
    ∀ l : List LeaderboardEntry, SortedDesc l → SortedDesc (es.foldl addEntryList l) := by
  induction es with
  | nil => intro l h; simpa using h
  | cons e es ih =>
    intro l _
    simpa using ih (addEntryList l e) (addEntryList_sorted l e)

theorem foldl_addEntryList_length (es : List LeaderboardEntry) :
    ∀ l : List LeaderboardEntry, l.length ≤ 10 → (es.foldl addEntryList l).length ≤ 10 := by
  induction es with
  | nil => intro l h; simpa using h
  | cons e es ih =>
    intro l _
    simpa using ih (addEntryList l e) (addEntryList_length l e)

theorem foldl_addEntryList_subperm (es : List LeaderboardEntry) :
    ∀ l : List LeaderboardEntry, List.Subperm (es.foldl addEntryList l) (l ++ es) := by
  induction es with
  | nil => intro l; simpa using List.Subperm.refl l
  | cons e es ih =>
    intro l
    have h1 : List.Subperm (es.foldl addEntryList (addEntryList l e)) (addEntryList l e ++ es) := ih _
    have h2 : List.Subperm (addEntryList l e ++ es) ((l ++ [e]) ++ es) :=
      (List.subperm_append_right es).mpr (addEntryList_subperm l e)
    have h3 : ((l ++ [e]) ++ es : List LeaderboardEntry) = l ++ (e :: es) := by
      simp
    simpa [h3] using h1.trans h2

/-- Claim C3: after every call to addEntry and after any sequence of such
calls, the leaderboard is sorted descending by score with ties keeping
insertion order (the new entry lands after its equal scores), has length at
most 10, contains exactly the entries that were added minus the entries
evicted by the 10-entry cap, and every evicted entry scores no higher than
every retained one. -/
theorem claim_C3 :
    (∀ es : List LeaderboardEntry,
      SortedDesc (addSeq es) ∧ (addSeq es).length ≤ 10 ∧ List.Subperm (addSeq es) es) ∧
    (∀ (l : List LeaderboardEntry) (e : LeaderboardEntry), SortedDesc l →
      addEntryList l e = (insertAfterGE e l).take 10) ∧
    (∀ (l : List LeaderboardEntry) (e : LeaderboardEntry),
      List.Perm (addEntryList l e ++ (sortDesc (l ++ [e])).drop 10) (l ++ [e])) ∧
    (∀ (l : List LeaderboardEntry) (e : LeaderboardEntry),
      ∀ a ∈ (sortDesc (l ++ [e])).drop 10, ∀ b ∈ addEntryList l e, a.score ≤ b.score) := by
  refine ⟨?_, ?_, ?_, ?_⟩
  · intro es
    refine ⟨?_, ?_, ?_⟩
    · exact foldl_addEntryList_sorted es [] (by simp [SortedDesc])
    · exact foldl_addEntryList_length es [] (by simp)
    · simpa using foldl_addEntryList_subperm es []
  · intro l e h
    simp [addEntryList, sortDesc_append_singleton e h]
  · intro l e
    have h1 : addEntryList l e ++ (sortDesc (l ++ [e])).drop 10 = sortDesc (l ++ [e]) := by
      simp [addEntryList]
    rw [h1]
    exact sortDesc_perm _
  · intro l e a ha b hb
    have hs : SortedDesc (sortDesc (l ++ [e])) := sortDesc_sorted _
    have hsplit : SortedDesc ((sortDesc (l ++ [e])).take 10 ++ (sortDesc (l ++ [e])).drop 10) := by
      rwa [List.take_append_drop]
    exact ((List.pairwise_append.mp hsplit).2.2) b hb a ha

/-- Witness for claim_C3 at concrete inputs: a two-entry sequence with a tie,
checking the sort, the cap and the tie rule concretely. -/
theorem claim_C3_witness :
    (SortedDesc (addSeq [⟨5, PlayerMode.Single, ['A', 'A', 'A']⟩,
        ⟨7, PlayerMode.Two, ['B', 'B', 'B']⟩]) ∧
      (addSeq [⟨5, PlayerMode.Single, ['A', 'A', 'A']⟩,
        ⟨7, PlayerMode.Two, ['B', 'B', 'B']⟩]).length ≤ 10 ∧
      List.Subperm (addSeq [⟨5, PlayerMode.Single, ['A', 'A', 'A']⟩, ⟨7, PlayerMode.Two, ['B', 'B', 'B']⟩])
        [⟨5, PlayerMode.Single, ['A', 'A', 'A']⟩, ⟨7, PlayerMode.Two, ['B', 'B', 'B']⟩]) ∧
    addEntryList [⟨5, PlayerMode.Single, ['A', 'A', 'A']⟩] ⟨5, PlayerMode.Two, ['B', 'B', 'B']⟩ =
      (insertAfterGE ⟨5, PlayerMode.Two, ['B', 'B', 'B']⟩
        [⟨5, PlayerMode.Single, ['A', 'A', 'A']⟩]).take 10 := by
  refine ⟨claim_C3.1 _, claim_C3.2.1 _ _ ?_⟩
  simp [SortedDesc]

/-! Scheduler lemmas. -/


theorem effectiveInterval_ge (d : ℚ) : 10 ≤ effectiveInterval d := by
  unfold effectiveInterval
  split_ifs with h
  · exact le_refl 10
  · exact le_of_not_lt h

theorem spawnLoop_succ_pos {rng : Rng} {interval : ℚ} {fuel : ℕ} {g : GameState} {k it : ℕ}
    (hguard : interval ≤ g.spawn_meter) :
    spawnLoop rng interval (fuel + 1) g k it =
      (if 2 ≤ g.difficulty_multiplier ∧ rng.extraDraw it = true then
        spawnLoop rng interval fuel
          ((GameState.spawn_object { g with spawn_meter := g.spawn_meter - interval } rng
            k).spawn_object rng (k + 1)) (k + 2) (it + 1)
      else
        spawnLoop rng interval fuel
          (GameState.spawn_object { g with spawn_meter := g.spawn_meter - interval } rng k)
          (k + 1) (it + 1)) := by
  rw [spawnLoop, if_pos hguard]

theorem spawnLoop_succ_neg {rng : Rng} {interval : ℚ} {fuel : ℕ} {g : GameState} {k it : ℕ}
    (hguard : ¬ interval ≤ g.spawn_meter) :
    spawnLoop rng interval (fuel + 1) g k it = g := by
  rw [spawnLoop, if_neg hguard]

/-- The spawn loop runs the exact while-loop semantics: some number n of
iterations, each subtracting the interval and spawning one object, plus an
extra object exactly when the difficulty is at least 2 and that iteration's
extra draw fired; the loop ends with the meter strictly below the interval,
and no field other than spawn_meter and objects changes. -/
theorem spawnLoop_spec (rng : Rng) (interval : ℚ) (hI : 10 ≤ interval) :
    ∀ (fuel : ℕ) (g : GameState) (k it : ℕ), g.spawn_meter ≤ 10 * (fuel : ℚ) →
    ∃ (n : ℕ) (newObjs : List FallingObject),
      spawnLoop rng interval fuel g k it =
        { g with spawn_meter := g.spawn_meter - n * interval
                 objects := g.objects ++ newObjs } ∧
      g.spawn_meter - n * interval < interval ∧
      (n = 0 ∨ 0 ≤ g.spawn_meter - n * interval) ∧
      newObjs.length = n + (if 2 ≤ g.difficulty_multiplier then extraCount rng it n else 0) := by
  intro fuel
  induction fuel with
  | zero =>
    intro g k it hm
    refine ⟨0, [], ?_, ?_, Or.inl rfl, by simp [extraCount]⟩
    · show g = _
      push_cast
      rw [zero_mul, sub_zero, List.append_nil]
    · push_cast
      rw [zero_mul, sub_zero]
      norm_num at hm
      linarith
  | succ fuel ih =>
    intro g k it hm
    by_cases hguard : interval ≤ g.spawn_meter
    · by_cases hextra : 2 ≤ g.difficulty_multiplier ∧ rng.extraDraw it = true
      · have hGm : ((GameState.spawn_object { g with spawn_meter := g.spawn_meter - interval }
            rng k).spawn_object rng (k + 1)).spawn_meter = g.spawn_meter - interval := rfl
        have hGd : ((GameState.spawn_object { g with spawn_meter := g.spawn_meter - interval }
            rng k).spawn_object rng (k + 1)).difficulty_multiplier =
            g.difficulty_multiplier := rfl
        obtain ⟨n', objs', heq, hlt, hpos, hlen⟩ :=
          ih ((GameState.spawn_object { g with spawn_meter := g.spawn_meter - interval } rng
                k).spawn_object rng (k + 1)) (k + 2) (it + 1)
            (by rw [hGm]; push_cast at hm ⊢; linarith)
        rw [hGm] at hlt hpos
        rw [hGd] at hlen
        refine ⟨n' + 1,
          ({ x := rng.xDraw k, y := -OBJECT_HEIGHT,
             obj_type := if rng.goodDraw k then ObjectType.GoodDeal else ObjectType.BadItem } :
            FallingObject) ::
          ({ x := rng.xDraw (k + 1), y := -OBJECT_HEIGHT,
             obj_type := if rng.goodDraw (k + 1) then ObjectType.GoodDeal
               else ObjectType.BadItem } : FallingObject) :: objs', ?_, ?_, ?_, ?_⟩
        · calc spawnLoop rng interval (fuel + 1) g k it
              = spawnLoop rng interval fuel
                  ((GameState.spawn_object { g with spawn_meter := g.spawn_meter - interval }
                    rng k).spawn_object rng (k + 1)) (k + 2) (it + 1) := by
                rw [spawnLoop_succ_pos hguard, if_pos hextra]
            _ = _ := heq
            _ = _ := by
                have hmet : g.spawn_meter - interval - (n' : ℚ) * interval
                    = g.spawn_meter - ((n' + 1 : ℕ) : ℚ) * interval := by push_cast; ring
                show { g with
                    spawn_meter := g.spawn_meter - interval - (n' : ℚ) * interval
                    objects := ((g.objects ++ [_]) ++ [_]) ++ objs' } = _
                rw [hmet, List.append_assoc, List.append_assoc, List.singleton_append, List.singleton_append]
        · push_cast at hlt ⊢
          linarith
        · refine Or.inr ?_
          push_cast
          rcases hpos with h0 | h0
          · rw [h0] at hlt ⊢
            push_cast at hlt ⊢
            linarith
          · linarith
        · rcases hextra with ⟨hd, hdraw⟩
          simp [List.length_cons, hlen, if_pos hd, extraCount, hdraw]
          omega
      · have hGm : (GameState.spawn_object { g with spawn_meter := g.spawn_meter - interval }
            rng k).spawn_meter = g.spawn_meter - interval := rfl
        have hGd : (GameState.spawn_object { g with spawn_meter := g.spawn_meter - interval }
            rng k).difficulty_multiplier = g.difficulty_multiplier := rfl
        obtain ⟨n', objs', heq, hlt, hpos, hlen⟩ :=
          ih (GameState.spawn_object { g with spawn_meter := g.spawn_meter - interval } rng k)
            (k + 1) (it + 1)
            (by rw [hGm]; push_cast at hm ⊢; linarith)
        rw [hGm] at hlt hpos
        rw [hGd] at hlen
        refine ⟨n' + 1,
          ({ x := rng.xDraw k, y := -OBJECT_HEIGHT,
             obj_type := if rng.goodDraw k then ObjectType.GoodDeal else ObjectType.BadItem } :
            FallingObject) :: objs', ?_, ?_, ?_, ?_⟩
        · calc spawnLoop rng interval (fuel + 1) g k it
              = spawnLoop rng interval fuel
                  (GameState.spawn_object { g with spawn_meter := g.spawn_meter - interval }
                    rng k) (k + 1) (it + 1) := by
                rw [spawnLoop_succ_pos hguard, if_neg hextra]
            _ = _ := heq
            _ = _ := by
                have hmet : g.spawn_meter - interval - (n' : ℚ) * interval
                    = g.spawn_meter - ((n' + 1 : ℕ) : ℚ) * interval := by push_cast; ring
                show { g with
                    spawn_meter := g.spawn_meter - interval - (n' : ℚ) * interval
                    objects := (g.objects ++ [_]) ++ objs' } = _
                rw [hmet, List.append_assoc, List.singleton_append]
        · push_cast at hlt ⊢
          linarith
        · refine Or.inr ?_
          push_cast
          rcases hpos with h0 | h0
          · rw [h0] at hlt ⊢
            push_cast at hlt ⊢
            linarith
          · linarith
        · by_cases hd : 2 ≤ g.difficulty_multiplier
          · have hdraw : rng.extraDraw it = false := by
              rcases Bool.eq_false_or_eq_true (rng.extraDraw it) with h | h
              · exact absurd ⟨hd, h⟩ hextra
              · exact h
            simp [List.length_cons, hlen, if_pos hd, extraCount, hdraw]
            omega
          · simp [List.length_cons, hlen, if_neg hd]
    · refine ⟨0, [], ?_, ?_, Or.inl rfl, by simp [extraCount]⟩
      · rw [spawnLoop_succ_neg hguard]
        show g = _
        push_cast
        rw [zero_mul, sub_zero, List.append_nil]
      · push_cast
        rw [zero_mul, sub_zero]
        exact lt_of_not_le hguard


theorem spawnFuel_adequate (m : ℚ) : m ≤ 10 * ((spawnFuel m : ℕ) : ℚ) := by
  unfold spawnFuel
  by_cases hm : m ≤ 0
  · have h1 : (0 : ℚ) ≤ ((m.num.toNat + 1 : ℕ) : ℚ) := by positivity
    push_cast at h1 ⊢
    linarith
  · push_neg at hm
    have hnum : 0 < m.num := Rat.num_pos.mpr hm
    have htn : ((m.num.toNat : ℤ) : ℚ) = (m.num : ℚ) := by
      have h0 : (m.num.toNat : ℤ) = m.num := Int.toNat_of_nonneg (le_of_lt hnum)
      rw [h0]
    have hden : (1 : ℚ) ≤ (m.den : ℚ) := by
      exact_mod_cast Nat.one_le_iff_ne_zero.mpr m.den_nz
    have hmnum : m ≤ (m.num : ℚ) := by
      have h2 : ((m.num : ℚ)) / (m.den : ℚ) = m := Rat.num_div_den m
      have h3 : ((m.num : ℚ)) / (m.den : ℚ) ≤ (m.num : ℚ) :=
        div_le_self (by exact_mod_cast le_of_lt hnum) hden
      linarith
    push_cast
    push_cast at htn
    linarith

/-- Full characterization of the scheduler part of GameState::update plus
the round-start reset; claim_C4 below repackages this. -/
theorem schedulerSpec :
    (∀ (g : GameState) (rng : Rng),
      ∃ (n : ℕ) (newObjs : List FallingObject),
        g.advanceSched rng =
          { g with
              frame_count := g.frame_count + 1
              difficulty_multiplier := bumpedDifficulty g
              spawn_meter := g.spawn_meter + 1 * bumpedDifficulty g -
                n * effectiveInterval (bumpedDifficulty g)
              objects := g.objects ++ newObjs } ∧
        g.spawn_meter + 1 * bumpedDifficulty g - n * effectiveInterval (bumpedDifficulty g) <
          effectiveInterval (bumpedDifficulty g) ∧
        (n = 0 ∨ 0 ≤ g.spawn_meter + 1 * bumpedDifficulty g -
          n * effectiveInterval (bumpedDifficulty g)) ∧
        newObjs.length = n + (if 2 ≤ bumpedDifficulty g then extraCount rng 0 n else 0) ∧
        g.difficulty_multiplier ≤ bumpedDifficulty g) ∧
    (∀ (g : GameState) (m : PlayerMode),
      (g.start_new_game m).difficulty_multiplier = 1 ∧
      (g.start_new_game m).spawn_meter = 0 ∧ (g.start_new_game m).frame_count = 0) := by
  constructor
  · intro g rng
    have hI := effectiveInterval_ge (bumpedDifficulty g)
    have hg3 : g.advanceSched rng =
        spawnLoop rng (effectiveInterval (bumpedDifficulty g))
          (spawnFuel (g.spawn_meter + 1 * bumpedDifficulty g))
          { g with frame_count := g.frame_count + 1
                   difficulty_multiplier := bumpedDifficulty g
                   spawn_meter := g.spawn_meter + 1 * bumpedDifficulty g } 0 0 := by
      simp only [GameState.advanceSched, bumpedDifficulty]
      split_ifs with h
      · rfl
      · rfl
    obtain ⟨n, newObjs, heq, hlt, hpos, hlen⟩ :=
      spawnLoop_spec rng (effectiveInterval (bumpedDifficulty g)) hI
        (spawnFuel (g.spawn_meter + 1 * bumpedDifficulty g))
        { g with frame_count := g.frame_count + 1
                 difficulty_multiplier := bumpedDifficulty g
                 spawn_meter := g.spawn_meter + 1 * bumpedDifficulty g } 0 0
        (spawnFuel_adequate _)
    refine ⟨n, newObjs, ?_, hlt, hpos, hlen, ?_⟩
    · rw [hg3, heq]
    · unfold bumpedDifficulty
      split_ifs with h
      · norm_num
      · exact le_refl _
  · intro g m
    exact ⟨rfl, rfl, rfl⟩

/-- Claim C4: on every Playing tick the scheduler increments the frame
counter, raises the difficulty multiplier by exactly 0.2 on every 600th tick
of the round and leaves it unchanged otherwise (so it never decreases, and
start_new_game resets it to 1.0 at round start), adds 1.0 times the
multiplier to the spawn accumulator, and then, with effectiveInterval =
max(10, 45 / multiplier), runs the while loop: n iterations each subtract
the interval and spawn one object, plus one extra object per iteration
exactly when the multiplier is at least 2.0 and that iteration's independent
oracle draw fired; the loop stops as soon as the accumulator is below the
interval.  Every other field of the state is untouched by the scheduler. -/
theorem claim_C4 :
    (∀ (g : GameState) (rng : Rng),
      ∃ (n : ℕ) (newObjs : List FallingObject),
        g.advanceSched rng =
          { g with
              frame_count := g.frame_count + 1
              difficulty_multiplier := bumpedDifficulty g
              spawn_meter := g.spawn_meter + 1 * bumpedDifficulty g -
                n * effectiveInterval (bumpedDifficulty g)
              objects := g.objects ++ newObjs } ∧
        g.spawn_meter + 1 * bumpedDifficulty g - n * effectiveInterval (bumpedDifficulty g) <
          effectiveInterval (bumpedDifficulty g) ∧
        (n = 0 ∨ 0 ≤ g.spawn_meter + 1 * bumpedDifficulty g -
          n * effectiveInterval (bumpedDifficulty g)) ∧
        newObjs.length = n + (if 2 ≤ bumpedDifficulty g then extraCount rng 0 n else 0) ∧
        g.difficulty_multiplier ≤ bumpedDifficulty g) ∧
    (∀ (g : GameState) (m : PlayerMode),
      (g.start_new_game m).difficulty_multiplier = 1 ∧
      (g.start_new_game m).spawn_meter = 0 ∧ (g.start_new_game m).frame_count = 0) :=
  schedulerSpec

/-- Fields of the state not owned by the scheduler are preserved by it. -/
theorem advanceSched_preserves (g : GameState) (rng : Rng) :
    (g.advanceSched rng).players = g.players ∧
    (g.advanceSched rng).phase = g.phase ∧
    (g.advanceSched rng).mode = g.mode ∧
    (g.advanceSched rng).final_scores = g.final_scores ∧
    (g.advanceSched rng).frame_count = g.frame_count + 1 ∧
    (g.advanceSched rng).difficulty_multiplier = bumpedDifficulty g := by
  obtain ⟨n, objs, heq, -⟩ := schedulerSpec.1 g rng
  rw [heq]
  exact ⟨rfl, rfl, rfl, rfl, rfl, rfl⟩

/-! Resolution order, claim C7. -/

theorem offscreen_dead_comm (g : GameState) :
    offscreenStep (deadStep g) = deadStep (offscreenStep g) := rfl

theorem offscreen_signal_comm (g : GameState) :
    offscreenStep (signalStep g) = signalStep (offscreenStep g) := by
  simp only [signalStep, offscreenStep, GameState.start_name_entry]
  split_ifs <;> rfl

/-- Claim C7: on a Playing tick whose roster is non-empty when the collision
resolution starts, the end-of-tick state of GameState::update equals the
composition, in the spec's order: collision scan plus removal of consumed
objects, then removal of off-screen objects, then archival and removal of
dead players, then the round-over signal. -/
theorem claim_C7 (g : GameState) (rng : Rng) (hp : g.phase = GamePhase.Playing)
    (h : (fallStep (g.advanceSched rng)).players ≠ []) :
    g.update rng =
      signalStep (deadStep (offscreenStep (consumeStep (fallStep (g.advanceSched rng))))) := by
  rw [GameState.update, if_neg (by simp [hp]), GameState.check_collisions, if_neg h,
    offscreen_signal_comm, offscreen_dead_comm]


/-- Witness for claim_C7 at the concrete state demoPlaying. -/
theorem claim_C7_witness :
    demoPlaying.update trivRng =
      signalStep (deadStep (offscreenStep (consumeStep
        (fallStep (demoPlaying.advanceSched trivRng))))) :=
  claim_C7 demoPlaying trivRng rfl (by
    norm_num [fallStep, GameState.advanceSched, spawnLoop, spawnFuel, effectiveInterval,
      bumpedDifficulty, GameState.spawn_object, BASE_SPAWN_INTERVAL, demoPlaying, trivRng,
      Rat.num_ofNat])

/-! Collision lemmas, claim C2. -/

theorem hitPlayer_good {o : FallingObject} (ho : o.obj_type = ObjectType.GoodDeal)
    (s : PlayerSlot) : hitPlayer o s = { s with score := s.score + 10 } := by
  unfold hitPlayer
  rw [ho]

theorem hitPlayer_bad {o : FallingObject} (ho : o.obj_type = ObjectType.BadItem)
    (s : PlayerSlot) : hitPlayer o s = { s with health := max (s.health - 1) 0 } := by
  have h1 : hitPlayer o s = { s with health := if s.health - 1 < 0 then 0 else s.health - 1 } := by
    unfold hitPlayer
    rw [ho]
  rw [h1]
  congr 1
  split_ifs with h <;> omega

theorem applyObject_none (o : FallingObject) :
    ∀ ps : List PlayerSlot, (∀ s ∈ ps, 0 < s.health → ¬ overlaps s o) →
      applyObject o ps = (ps, false) := by
  intro ps
  induction ps with
  | nil => intro _; rfl
  | cons s rest ih =>
    intro h
    have hrest : ∀ t ∈ rest, 0 < t.health → ¬ overlaps t o := by
      intro t ht
      exact h t (List.mem_cons_of_mem s ht)
    by_cases hd : s.health ≤ 0
    · simp [applyObject, hd, ih hrest]
    · have hov : ¬ overlaps s o := h s (List.mem_cons_self s rest) (lt_of_not_le hd)
      simp [applyObject, hd, hov, ih hrest]

theorem applyObject_first (o : FallingObject) :
    ∀ (l1 : List PlayerSlot) (s : PlayerSlot) (l2 : List PlayerSlot),
      (∀ t ∈ l1, 0 < t.health → ¬ overlaps t o) → 0 < s.health → overlaps s o →
      applyObject o (l1 ++ s :: l2) = (l1 ++ hitPlayer o s :: l2, true) := by
  intro l1
  induction l1 with
  | nil =>
    intro s l2 _ hs hov
    simp [applyObject, not_le_of_lt hs, hov]
  | cons t l1 ih =>
    intro s l2 h hs hov
    have hl1 : ∀ u ∈ l1, 0 < u.health → ¬ overlaps u o := by
      intro u hu
      exact h u (List.mem_cons_of_mem t hu)
    by_cases ht : t.health ≤ 0
    · simp [applyObject, ht, ih s l2 hl1 hs hov]
    · have hno : ¬ overlaps t o := h t (List.mem_cons_self t l1) (lt_of_not_le ht)
      simp [applyObject, ht, hno, ih s l2 hl1 hs hov]

/-- Claim C2: per-object collision law of a Playing tick.  An object is
tested against the living players in player-slot order: if no living player
overlaps it, the scan leaves every player unchanged and does not flag the
object for removal, so it survives; on the first living overlapping player
the object is flagged for removal, a GoodDeal adds exactly 10 to that
player's score, a BadItem subtracts exactly 1 from that player's health
clamped at 0, and no other player (earlier or later in slot order) is
changed by that object.  Flagged objects are exactly the ones removed by the
post-scan removal, and an off-screen object (y at least fieldHeight) is
removed by the separate off-screen pass while objects with y below
fieldHeight survive it. -/
theorem claim_C2 :
    (∀ (o : FallingObject) (ps : List PlayerSlot),
      (∀ s ∈ ps, 0 < s.health → ¬ overlaps s o) → applyObject o ps = (ps, false)) ∧
    (∀ (o : FallingObject) (l1 : List PlayerSlot) (s : PlayerSlot) (l2 : List PlayerSlot),
      (∀ t ∈ l1, 0 < t.health → ¬ overlaps t o) → 0 < s.health → overlaps s o →
      applyObject o (l1 ++ s :: l2) = (l1 ++ hitPlayer o s :: l2, true)) ∧
    (∀ (o : FallingObject) (s : PlayerSlot), o.obj_type = ObjectType.GoodDeal →
      hitPlayer o s = { s with score := s.score + 10 }) ∧
    (∀ (o : FallingObject) (s : PlayerSlot), o.obj_type = ObjectType.BadItem →
      hitPlayer o s = { s with health := max (s.health - 1) 0 }) ∧
    (∀ (o : FallingObject) (os : List FallingObject) (f : Bool) (fs : List Bool),
      removeFlagged (o :: os) (f :: fs) =
        if f = true then removeFlagged os fs else o :: removeFlagged os fs) ∧
    (∀ (g : GameState) (o : FallingObject),
      o ∈ (offscreenStep g).objects ↔ o ∈ g.objects ∧ o.y < CANVAS_HEIGHT) := by
  refine ⟨applyObject_none, applyObject_first, fun o s ho => hitPlayer_good ho s,
    fun o s ho => hitPlayer_bad ho s, ?_, ?_⟩
  · intro o os f fs
    cases f
    · simp [removeFlagged]
    · simp [removeFlagged]
  · intro g o
    simp [offscreenStep]

/-- Witness for claim_C2 at concrete inputs: the demoPlaying slot and bad
item overlap, a good-deal object far away does not. -/
theorem claim_C2_witness :
    applyObject { x := 0, y := 0, obj_type := ObjectType.GoodDeal }
        [{ player := { x := 150, y := 200 }, score := 0, health := 1, player_index := 0 }] =
      ([{ player := { x := 150, y := 200 }, score := 0, health := 1, player_index := 0 }],
        false) ∧
    applyObject { x := 150, y := 200, obj_type := ObjectType.BadItem }
        [{ player := { x := 150, y := 200 }, score := 0, health := 1, player_index := 0 }] =
      ([hitPlayer { x := 150, y := 200, obj_type := ObjectType.BadItem }
          { player := { x := 150, y := 200 }, score := 0, health := 1, player_index := 0 }],
        true) ∧
    (hitPlayer { x := 150, y := 200, obj_type := ObjectType.BadItem }
        { player := { x := 150, y := 200 }, score := 0, health := 1, player_index := 0 }).health =
      max ((1 : ℤ) - 1) 0 := by
  refine ⟨?_, ?_, ?_⟩
  · refine claim_C2.1 _ _ ?_
    intro s hs hh
    rcases List.mem_singleton.mp hs with rfl
    norm_num [overlaps, OBJECT_WIDTH, OBJECT_HEIGHT, PLAYER_WIDTH, PLAYER_HEIGHT]
  · have h := claim_C2.2.1 { x := 150, y := 200, obj_type := ObjectType.BadItem } []
      { player := { x := 150, y := 200 }, score := 0, health := 1, player_index := 0 } []
      (by intro t ht; cases ht) (by norm_num)
      (by norm_num [overlaps, OBJECT_WIDTH, OBJECT_HEIGHT, PLAYER_WIDTH, PLAYER_HEIGHT])
    simpa using h
  · rw [claim_C2.2.2.2.1 { x := 150, y := 200, obj_type := ObjectType.BadItem }
      { player := { x := 150, y := 200 }, score := 0, health := 1, player_index := 0 } rfl]

/-! Invariant lemmas, claims C8 and C10. -/


theorem moveSlot_clamps (s : PlayerSlot) (dx : ℚ) :
    0 ≤ (moveSlot s dx).player.x ∧ (moveSlot s dx).player.x ≤ CANVAS_WIDTH - PLAYER_WIDTH := by
  have hW : (0 : ℚ) ≤ CANVAS_WIDTH - PLAYER_WIDTH := by norm_num [CANVAS_WIDTH, PLAYER_WIDTH]
  simp only [moveSlot]
  constructor <;> split_ifs <;> linarith

theorem moveSlot_health (s : PlayerSlot) (dx : ℚ) : (moveSlot s dx).health = s.health := rfl

theorem movePlayers_mem : ∀ (ps : List PlayerSlot) (idx : ℕ) (dx : ℚ),
    ∀ s' ∈ movePlayers ps idx dx, s' ∈ ps ∨ ∃ s ∈ ps, s' = moveSlot s dx := by
  intro ps idx dx
  induction ps with
  | nil => intro s' h; cases h
  | cons t rest ih =>
    intro s' h
    rw [movePlayers] at h
    split_ifs at h with hc
    · rcases List.mem_cons.mp h with heq | hmem
      · exact Or.inr ⟨t, List.mem_cons_self t rest, heq⟩
      · exact Or.inl (List.mem_cons_of_mem t hmem)
    · rcases List.mem_cons.mp h with heq | hmem
      · exact Or.inl (heq ▸ List.mem_cons_self t rest)
      · rcases ih s' hmem with h1 | ⟨s, hs, he⟩
        · exact Or.inl (List.mem_cons_of_mem t h1)
        · exact Or.inr ⟨s, List.mem_cons_of_mem t hs, he⟩

theorem movePlayers_length : ∀ (ps : List PlayerSlot) (idx : ℕ) (dx : ℚ),
    (movePlayers ps idx dx).length = ps.length := by
  intro ps idx dx
  induction ps with
  | nil => rfl
  | cons t rest ih =>
    rw [movePlayers]
    split_ifs with hc
    · rfl
    · simp [ih]

theorem movePlayers_invP {ps : List PlayerSlot} (h : InvP ps) (idx : ℕ) (dx : ℚ) :
    InvP (movePlayers ps idx dx) := by
  intro s' hmem
  rcases movePlayers_mem ps idx dx s' hmem with h1 | ⟨s, hs, he⟩
  · exact h s' h1
  · subst he
    exact ⟨(moveSlot_health s dx) ▸ (h s hs).1, (moveSlot_clamps s dx).1,
      (moveSlot_clamps s dx).2⟩

theorem hitPlayer_keeps (o : FallingObject) (s : PlayerSlot) :
    (hitPlayer o s).player = s.player ∧ (hitPlayer o s).player_index = s.player_index := by
  unfold hitPlayer
  cases o.obj_type <;> exact ⟨rfl, rfl⟩

theorem applyObject_length (o : FallingObject) :
    ∀ ps : List PlayerSlot, (applyObject o ps).1.length = ps.length := by
  intro ps
  induction ps with
  | nil => rfl
  | cons t rest ih =>
    rw [applyObject]
    split_ifs with h1 h2
    · simp [ih]
    · rfl
    · simp [ih]

theorem applyObject_mem (o : FallingObject) :
    ∀ ps : List PlayerSlot, ∀ s' ∈ (applyObject o ps).1,
      ∃ s ∈ ps, s'.player = s.player ∧ s'.player_index = s.player_index := by
  intro ps
  induction ps with
  | nil => intro s' h; cases h
  | cons t rest ih =>
    intro s' h
    rw [applyObject] at h
    split_ifs at h with h1 h2
    · rcases List.mem_cons.mp h with heq | hmem
      · exact ⟨t, List.mem_cons_self t rest, by rw [heq], by rw [heq]⟩
      · obtain ⟨s, hs, he⟩ := ih s' hmem
        exact ⟨s, List.mem_cons_of_mem t hs, he⟩
    · rcases List.mem_cons.mp h with heq | hmem
      · refine ⟨t, List.mem_cons_self t rest, ?_, ?_⟩
        · rw [heq]
          exact (hitPlayer_keeps o t).1
        · rw [heq]
          exact (hitPlayer_keeps o t).2
      · exact ⟨s', List.mem_cons_of_mem t hmem, rfl, rfl⟩
    · rcases List.mem_cons.mp h with heq | hmem
      · exact ⟨t, List.mem_cons_self t rest, by rw [heq], by rw [heq]⟩
      · obtain ⟨s, hs, he⟩ := ih s' hmem
        exact ⟨s, List.mem_cons_of_mem t hs, he⟩

theorem scanObjects_length : ∀ (os : List FallingObject) (ps : List PlayerSlot),
    (scanObjects os ps).1.length = ps.length := by
  intro os
  induction os with
  | nil => intro ps; rfl
  | cons o os ih =>
    intro ps
    show (scanObjects os (applyObject o ps).1).1.length = ps.length
    rw [ih, applyObject_length]

theorem scanObjects_mem : ∀ (os : List FallingObject) (ps : List PlayerSlot),
    ∀ s' ∈ (scanObjects os ps).1,
      ∃ s ∈ ps, s'.player = s.player ∧ s'.player_index = s.player_index := by
  intro os
  induction os with
  | nil => intro ps s' h; exact ⟨s', h, rfl, rfl⟩
  | cons o os ih =>
    intro ps s' h
    have h2 : s' ∈ (scanObjects os (applyObject o ps).1).1 := h
    obtain ⟨s1, hs1, hp1, hi1⟩ := ih _ s' h2
    obtain ⟨s0, hs0, hp0, hi0⟩ := applyObject_mem o ps s1 hs1
    exact ⟨s0, hs0, hp1.trans hp0, hi1.trans hi0⟩

theorem signalStep_players (g : GameState) : (signalStep g).players = g.players := by
  simp only [signalStep, GameState.start_name_entry]
  split_ifs <;> rfl

theorem signalStep_final (g : GameState) : (signalStep g).final_scores = g.final_scores := by
  simp only [signalStep, GameState.start_name_entry]
  split_ifs <;> rfl

theorem check_collisions_players (g : GameState)
    (hx : ∀ s ∈ g.players, 0 ≤ s.player.x ∧ s.player.x ≤ CANVAS_WIDTH - PLAYER_WIDTH) :
    InvP g.check_collisions.players := by
  intro s hs
  rw [GameState.check_collisions] at hs
  split_ifs at hs with hemp
  · rw [hemp] at hs
    cases hs
  · rw [signalStep_players] at hs
    have hs2 : s ∈ (scanObjects g.objects g.players).1.filter
        (fun t => decide (0 < t.health)) := hs
    rw [List.mem_filter] at hs2
    obtain ⟨hmem, hh⟩ := hs2
    obtain ⟨s0, hs0, hp, _⟩ := scanObjects_mem g.objects g.players s hmem
    exact ⟨of_decide_eq_true hh, hp ▸ (hx s0 hs0).1, hp ▸ (hx s0 hs0).2⟩

theorem update_inv (g : GameState) (rng : Rng) (h : Inv g) : Inv (g.update rng) := by
  rw [GameState.update]
  split_ifs with hp
  · exact h
  · intro s hs
    have hs1 : s ∈ (fallStep (g.advanceSched rng)).check_collisions.players := hs
    refine check_collisions_players _ ?_ s hs1
    intro t ht
    have ht2 : t ∈ g.players := by
      have e1 : (fallStep (g.advanceSched rng)).players = (g.advanceSched rng).players := rfl
      rw [e1, (advanceSched_preserves g rng).1] at ht
      exact ht
    exact ⟨(h t ht2).2.1, (h t ht2).2.2⟩

/-- The freshly allocated roster of start_new_game satisfies the invariant:
one or two slots, evenly spaced, all inside the field. -/
theorem fresh_players_inv (m : PlayerMode) :
    InvP ((List.range m.player_count).map (fun idx => PlayerSlot.new idx m.player_count)) := by
  intro s hs
  cases m
  · have hs2 : s ∈ [PlayerSlot.new 0 1] := by
      simpa [PlayerMode.player_count, List.range_succ, List.range_zero] using hs
    rcases List.mem_singleton.mp hs2 with rfl
    norm_num [PlayerSlot.new, CANVAS_WIDTH, CANVAS_HEIGHT, PLAYER_WIDTH, PLAYER_HEIGHT]
  · have hs2 : s ∈ [PlayerSlot.new 0 2, PlayerSlot.new 1 2] := by
      simpa [PlayerMode.player_count, List.range_succ, List.range_zero] using hs
    rcases List.mem_cons.mp hs2 with rfl | hs3
    · norm_num [PlayerSlot.new, CANVAS_WIDTH, CANVAS_HEIGHT, PLAYER_WIDTH, PLAYER_HEIGHT]
    · rcases List.mem_singleton.mp hs3 with rfl
      norm_num [PlayerSlot.new, CANVAS_WIDTH, CANVAS_HEIGHT, PLAYER_WIDTH, PLAYER_HEIGHT]

theorem start_new_game_inv (g : GameState) (m : PlayerMode) : Inv (g.start_new_game m) :=
  fun s hs => fresh_players_inv m s hs

theorem confirmStep_players (g : GameState) (i : InputSnapshot) :
    (confirmStep g i).players = g.players := by
  unfold confirmStep GameState.add_to_leaderboard
  split_ifs with h
  · cases hp : g.pending_scores with
    | nil => rfl
    | cons a rest =>
      cases a
      dsimp only
      split_ifs <;> rfl
  · rfl

theorem handle_name_entry_players (g : GameState) (i : InputSnapshot) :
    (g.handle_name_entry i).players = g.players := by
  show (confirmStep { g with current_name := nameAfterNav g i
                             name_entry_index := cursorAfterNav g i } i).players = g.players
  rw [confirmStep_players]

set_option maxHeartbeats 1600000 in
theorem tick_inv (g : GameState) (i : InputSnapshot) (rng : Rng) (h : Inv g) :
    Inv (tick g i rng) := by
  rw [tick]
  cases hph : g.phase
  · dsimp only
    refine update_inv _ rng ?_
    split_ifs <;> intro s hs <;> first
      | exact fresh_players_inv _ s hs
      | exact h s hs
  · dsimp only
    refine update_inv _ rng ?_
    split_ifs <;> intro s hs <;> first
      | exact h s hs
      | exact movePlayers_invP h _ _ s hs
      | exact movePlayers_invP (movePlayers_invP h _ _) _ _ s hs
      | exact movePlayers_invP (movePlayers_invP (movePlayers_invP h _ _) _ _) _ _ s hs
      | exact movePlayers_invP (movePlayers_invP (movePlayers_invP
          (movePlayers_invP h _ _) _ _) _ _) _ _ s hs
  · dsimp only
    refine update_inv _ rng ?_
    split_ifs <;> intro s hs <;> first
      | exact fresh_players_inv _ s hs
      | exact absurd hs (List.not_mem_nil s)
      | exact h s hs
  · dsimp only
    refine update_inv _ rng ?_
    intro s hs
    have hs2 : s ∈ (g.handle_name_entry i).players := hs
    rw [handle_name_entry_players g i] at hs2
    exact h s hs2

theorem movePlayers_ne_nil {ps : List PlayerSlot} (h : ps ≠ []) (idx : ℕ) (dx : ℚ) :
    movePlayers ps idx dx ≠ [] := by
  intro hnil
  have hl := movePlayers_length ps idx dx
  rw [hnil] at hl
  exact h (List.eq_nil_of_length_eq_zero hl.symm)

/-- Claim C8: the per-move clamp keeps x inside [0, fieldWidth - actorWidth]
unconditionally; a full tick preserves the roster invariant (positive health
and clamped x for every live slot); and the roster allocated at round start
satisfies the invariant. -/
theorem claim_C8 :
    (∀ (s : PlayerSlot) (dx : ℚ),
      0 ≤ (moveSlot s dx).player.x ∧ (moveSlot s dx).player.x ≤ CANVAS_WIDTH - PLAYER_WIDTH) ∧
    (∀ (g : GameState) (i : InputSnapshot) (rng : Rng), Inv g → Inv (tick g i rng)) ∧
    (∀ (g : GameState) (m : PlayerMode), Inv (g.start_new_game m)) :=
  ⟨moveSlot_clamps, tick_inv, start_new_game_inv⟩

/-- Witness for claim_C8: the invariant holds after one tick of the concrete
state demoPlaying. -/
theorem claim_C8_witness : Inv (tick demoPlaying noInput trivRng) :=
  claim_C8.2.1 demoPlaying noInput trivRng (by
    intro s hs
    rcases List.mem_singleton.mp hs with rfl
    norm_num [CANVAS_WIDTH, PLAYER_WIDTH])

theorem start_name_entry_ne (g : GameState) (h : g.final_scores ≠ []) :
    g.start_name_entry = { g with pending_scores := g.final_scores
                                  name_entry_index := 0
                                  current_name := ['A', 'A', 'A']
                                  phase := GamePhase.NameEntry } := by
  simp only [GameState.start_name_entry]
  rw [if_neg (show ¬ ({ g with pending_scores := g.final_scores } :
    GameState).pending_scores = [] from h)]

theorem update_roster_empty (g : GameState) (rng : Rng) (hp : g.phase = GamePhase.Playing)
    (hne : g.players ≠ []) (hempty : (g.update rng).players = []) :
    (g.update rng).final_scores ≠ [] ∧ (g.update rng).phase = GamePhase.NameEntry := by
  rw [GameState.update, if_neg (by simp [hp])] at hempty ⊢
  have hGp : (fallStep (g.advanceSched rng)).players = g.players := by
    show (g.advanceSched rng).players = g.players
    exact (advanceSched_preserves g rng).1
  have hGph : (fallStep (g.advanceSched rng)).phase = GamePhase.Playing := by
    show (g.advanceSched rng).phase = GamePhase.Playing
    rw [(advanceSched_preserves g rng).2.1, hp]
  have hGne : (fallStep (g.advanceSched rng)).players ≠ [] := by
    rw [hGp]
    exact hne
  rw [GameState.check_collisions, if_neg hGne] at hempty ⊢
  have hD : (signalStep (deadStep (consumeStep (fallStep (g.advanceSched rng))))).players
      = [] := hempty
  rw [signalStep_players] at hD
  have hD2 : ((scanObjects (fallStep (g.advanceSched rng)).objects
      (fallStep (g.advanceSched rng)).players).1.filter
        (fun t => decide (0 < t.health))) = [] := hD
  have hall : ∀ t ∈ (scanObjects (fallStep (g.advanceSched rng)).objects
      (fallStep (g.advanceSched rng)).players).1, t.health ≤ 0 := by
    intro t ht
    have h1 := List.filter_eq_nil_iff.mp hD2 t ht
    exact le_of_not_lt (by simpa using h1)
  have hlen := scanObjects_length (fallStep (g.advanceSched rng)).objects
    (fallStep (g.advanceSched rng)).players
  have hpos : (scanObjects (fallStep (g.advanceSched rng)).objects
      (fallStep (g.advanceSched rng)).players).1 ≠ [] := by
    intro hnil
    rw [hnil] at hlen
    exact hGne (List.eq_nil_of_length_eq_zero hlen.symm)
  have hdead : ((scanObjects (fallStep (g.advanceSched rng)).objects
      (fallStep (g.advanceSched rng)).players).1.filter
        (fun t => decide (t.health ≤ 0))) =
      (scanObjects (fallStep (g.advanceSched rng)).objects
        (fallStep (g.advanceSched rng)).players).1 :=
    List.filter_eq_self.mpr (fun t ht => decide_eq_true (hall t ht))
  have hfinal : (deadStep (consumeStep (fallStep (g.advanceSched rng)))).final_scores ≠ [] := by
    show (fallStep (g.advanceSched rng)).final_scores ++
      ((scanObjects (fallStep (g.advanceSched rng)).objects
        (fallStep (g.advanceSched rng)).players).1.filter
          (fun t => decide (t.health ≤ 0))).map (fun t => (t.player_index, t.score)) ≠ []
    intro hcontra
    obtain ⟨h1, h2⟩ := List.append_eq_nil.mp hcontra
    rw [hdead] at h2
    exact hpos (List.map_eq_nil_iff.mp h2)
  have hDph : (deadStep (consumeStep (fallStep (g.advanceSched rng)))).phase
      = GamePhase.Playing := hGph
  have hsig : signalStep (deadStep (consumeStep (fallStep (g.advanceSched rng)))) =
      (deadStep (consumeStep (fallStep (g.advanceSched rng)))).start_name_entry := by
    rw [signalStep, if_pos ⟨hD, hDph⟩]
  rw [hsig, start_name_entry_ne _ hfinal]
  constructor
  · show (deadStep (consumeStep (fallStep (g.advanceSched rng)))).final_scores ≠ []
    exact hfinal
  · rfl

/-- Claim C10: if a Playing tick starting from a non-empty roster empties the
roster, then the archived final-scores list is non-empty (every eliminated
player was archived before removal) and the phase after the tick is
NameEntry, never GameOver: the direct Playing to GameOver transition does
not occur. -/
theorem claim_C10 (g : GameState) (i : InputSnapshot) (rng : Rng)
    (hp : g.phase = GamePhase.Playing) (hne : g.players ≠ [])
    (hempty : (tick g i rng).players = []) :
    (tick g i rng).final_scores ≠ [] ∧ (tick g i rng).phase = GamePhase.NameEntry := by
  rw [tick] at hempty ⊢
  rw [hp] at hempty ⊢
  dsimp only at hempty ⊢
  refine update_roster_empty _ rng ?_ ?_ hempty
  · split_ifs <;> exact hp
  · split_ifs <;> first
      | exact hne
      | exact movePlayers_ne_nil hne _ _
      | exact movePlayers_ne_nil (movePlayers_ne_nil hne _ _) _ _
      | exact movePlayers_ne_nil (movePlayers_ne_nil (movePlayers_ne_nil hne _ _) _ _) _ _
      | exact movePlayers_ne_nil (movePlayers_ne_nil (movePlayers_ne_nil
          (movePlayers_ne_nil hne _ _) _ _) _ _) _ _

/-- Witness for claim_C10: in demoPlaying the single slot has health 1 and a
bad item lands on it this tick, so the roster empties, the score is archived
and the phase goes to NameEntry. -/
theorem claim_C10_witness :
    (tick demoPlaying noInput trivRng).final_scores ≠ [] ∧
      (tick demoPlaying noInput trivRng).phase = GamePhase.NameEntry :=
  claim_C10 demoPlaying noInput trivRng rfl (by decide) (by
    norm_num [tick, GameState.update, GameState.advanceSched, spawnLoop, spawnFuel,
      effectiveInterval, GameState.check_collisions, consumeStep, deadStep, signalStep,
      offscreenStep, scanObjects, applyObject, overlaps, hitPlayer, removeFlagged,
      GameState.start_name_entry, GameState.spawn_object, GameState.move_player, movePlayers,
      fallStep, CANVAS_WIDTH, CANVAS_HEIGHT, PLAYER_WIDTH, PLAYER_HEIGHT, OBJECT_WIDTH,
      OBJECT_HEIGHT, OBJECT_SPEED, BASE_SPAWN_INTERVAL, demoPlaying, noInput, trivRng,
      Rat.num_ofNat])

/-! NameEntry tick lemmas, claims C1, C6, C9. -/

theorem confirmStep_id (g : GameState) (i : InputSnapshot) (ha : i.player1_a = false) :
    confirmStep g i = g := by
  unfold confirmStep
  rw [ha]
  rfl

theorem handle_name_entry_phase (g : GameState) (i : InputSnapshot) :
    (g.handle_name_entry i).phase = g.phase ∨
      (g.handle_name_entry i).phase = GamePhase.GameOver := by
  show (confirmStep
      { g with current_name := nameAfterNav g i, name_entry_index := cursorAfterNav g i }
      i).phase = g.phase ∨
    (confirmStep
      { g with current_name := nameAfterNav g i, name_entry_index := cursorAfterNav g i }
      i).phase = GamePhase.GameOver
  unfold confirmStep GameState.add_to_leaderboard
  split_ifs with h
  · cases hp : g.pending_scores with
    | nil => exact Or.inl rfl
    | cons a rest =>
      cases a
      dsimp only
      split_ifs
      · exact Or.inr rfl
      · exact Or.inl rfl
  · exact Or.inl rfl

/-- On a NameEntry tick, the frame callback is handle_name_entry followed by
the system-button bookkeeping; GameState::update is the identity because the
phase is NameEntry or GameOver afterwards. -/
theorem tick_nameEntry (g : GameState) (i : InputSnapshot) (rng : Rng)
    (hp : g.phase = GamePhase.NameEntry) :
    tick g i rng =
      { g.handle_name_entry i with
          last_system_one_player := i.system_one_player
          last_system_two_player := i.system_two_player
          last_confirm := i.player1_a || i.player2_a } := by
  rw [tick, hp]
  dsimp only
  have hph : ¬ ({ g.handle_name_entry i with
      last_system_one_player := i.system_one_player
      last_system_two_player := i.system_two_player
      last_confirm := i.player1_a || i.player2_a } : GameState).phase = GamePhase.Playing := by
    show ¬ (g.handle_name_entry i).phase = GamePhase.Playing
    rcases handle_name_entry_phase g i with h | h
    · rw [h, hp]
      intro hc
      cases hc
    · rw [h]
      intro hc
      cases hc
  rw [GameState.update, if_pos hph]

theorem padName_take_of_length {l : List Char} (h : l.length = 3) : (padName l).take 3 = l := by
  unfold padName
  rw [h]
  norm_num
  exact le_of_eq h

theorem nameAfterNav_length (g : GameState) (i : InputSnapshot) :
    (nameAfterNav g i).length = 3 := by
  have hbase : ((padName g.current_name).take 3).length = 3 := by
    simp [padName]
    omega
  unfold nameAfterNav
  split_ifs <;> simp_all

theorem nameAfterNav_still (g : GameState) (i : InputSnapshot)
    (hup : (i.player1_up && !g.last_up) = false)
    (hdn : (i.player1_down && !g.last_down) = false)
    (hname : g.current_name.length = 3) :
    nameAfterNav g i = g.current_name := by
  unfold nameAfterNav
  rw [hup, hdn]
  simp only [Bool.false_eq_true, if_false]
  rw [List.take_take]
  norm_num
  exact padName_take_of_length hname

theorem cursorAfterNav_still (g : GameState) (i : InputSnapshot)
    (hlf : (i.player1_left && !g.last_left) = false)
    (hrt : (i.player1_right && !g.last_right) = false) :
    cursorAfterNav g i = g.name_entry_index := by
  unfold cursorAfterNav
  rw [hlf, hrt]
  rfl

/-- A NameEntry tick whose inputs carry no fresh edge and no confirm is the
identity on the state, provided the previous-input flags already record the
currently held buttons. -/
theorem tick_nameEntry_fix (g : GameState) (i : InputSnapshot) (rng : Rng)
    (hp : g.phase = GamePhase.NameEntry)
    (ha : i.player1_a = false)
    (hname : g.current_name.length = 3)
    (h1 : g.last_up = i.player1_up) (h2 : g.last_down = i.player1_down)
    (h3 : g.last_left = i.player1_left) (h4 : g.last_right = i.player1_right)
    (h5 : g.last_system_one_player = i.system_one_player)
    (h6 : g.last_system_two_player = i.system_two_player)
    (h7 : g.last_confirm = (i.player1_a || i.player2_a)) :
    tick g i rng = g := by
  rw [tick_nameEntry g i rng hp]
  have hnav : nameAfterNav g i = g.current_name := by
    refine nameAfterNav_still g i ?_ ?_ hname
    · rw [h1]
      exact Bool.and_not_self i.player1_up
    · rw [h2]
      exact Bool.and_not_self i.player1_down
  have hcur : cursorAfterNav g i = g.name_entry_index := by
    refine cursorAfterNav_still g i ?_ ?_
    · rw [h3]
      exact Bool.and_not_self i.player1_left
    · rw [h4]
      exact Bool.and_not_self i.player1_right
  show ({ confirmStep { g with current_name := nameAfterNav g i
                               name_entry_index := cursorAfterNav g i } i with
      last_up := i.player1_up, last_down := i.player1_down, last_left := i.player1_left,
      last_right := i.player1_right, last_system_one_player := i.system_one_player,
      last_system_two_player := i.system_two_player,
      last_confirm := i.player1_a || i.player2_a } : GameState) = g
  rw [confirmStep_id _ i ha, hnav, hcur, ← h1, ← h2, ← h3, ← h4, ← h5, ← h6, ← h7]

/-- The previous-input flags, phase and name shape after one NameEntry tick
with no confirm press. -/
theorem tick_nameEntry_image (g : GameState) (i : InputSnapshot) (rng : Rng)
    (hp : g.phase = GamePhase.NameEntry) (ha : i.player1_a = false) :
    (tick g i rng).phase = GamePhase.NameEntry ∧
    (tick g i rng).current_name = nameAfterNav g i ∧
    (tick g i rng).name_entry_index = cursorAfterNav g i ∧
    (tick g i rng).last_up = i.player1_up ∧
    (tick g i rng).last_down = i.player1_down ∧
    (tick g i rng).last_left = i.player1_left ∧
    (tick g i rng).last_right = i.player1_right ∧
    (tick g i rng).last_system_one_player = i.system_one_player ∧
    (tick g i rng).last_system_two_player = i.system_two_player ∧
    (tick g i rng).last_confirm = (i.player1_a || i.player2_a) ∧
    (tick g i rng).leaderboard = g.leaderboard ∧
    (tick g i rng).pending_scores = g.pending_scores := by
  rw [tick_nameEntry g i rng hp]
  have hh : g.handle_name_entry i =
      { g with current_name := nameAfterNav g i
               name_entry_index := cursorAfterNav g i
               last_up := i.player1_up, last_down := i.player1_down
               last_left := i.player1_left, last_right := i.player1_right } := by
    show ({ confirmStep { g with current_name := nameAfterNav g i
                                 name_entry_index := cursorAfterNav g i } i with
        last_up := i.player1_up, last_down := i.player1_down,
        last_left := i.player1_left, last_right := i.player1_right } : GameState) = _
    rw [confirmStep_id _ i ha]
  rw [hh]
  exact ⟨hp, rfl, rfl, rfl, rfl, rfl, rfl, rfl, rfl, rfl, rfl, rfl⟩

/-! ModeSelect and GameOver tick lemmas, claims C1, C5, C9. -/

theorem check_collisions_mode (g : GameState) : g.check_collisions.mode = g.mode := by
  rw [GameState.check_collisions]
  split_ifs with h
  · rfl
  · show (signalStep (deadStep (consumeStep g))).mode = g.mode
    simp only [signalStep, GameState.start_name_entry]
    split_ifs <;> rfl

theorem check_collisions_menu (g : GameState) :
    g.check_collisions.menu_selection = g.menu_selection := by
  rw [GameState.check_collisions]
  split_ifs with h
  · rfl
  · show (signalStep (deadStep (consumeStep g))).menu_selection = g.menu_selection
    simp only [signalStep, GameState.start_name_entry]
    split_ifs <;> rfl

theorem update_mode (g : GameState) (rng : Rng) : (g.update rng).mode = g.mode := by
  rw [GameState.update]
  split_ifs with h
  · rfl
  · show (fallStep (g.advanceSched rng)).check_collisions.mode = g.mode
    rw [check_collisions_mode]
    show (g.advanceSched rng).mode = g.mode
    exact (advanceSched_preserves g rng).2.2.1

theorem update_menu (g : GameState) (rng : Rng) :
    (g.update rng).menu_selection = g.menu_selection := by
  rw [GameState.update]
  split_ifs with h
  · rfl
  · show (fallStep (g.advanceSched rng)).check_collisions.menu_selection = g.menu_selection
    rw [check_collisions_menu]
    show (g.advanceSched rng).menu_selection = g.menu_selection
    obtain ⟨n, objs, heq, -⟩ := schedulerSpec.1 g rng
    rw [heq]

/-- A ModeSelect tick with no held menu-direction buttons and no fresh edge
on either system button or confirm is the identity, provided the
previous-input flags already record the held buttons. -/
theorem tick_modeSelect_fix (g : GameState) (i : InputSnapshot) (rng : Rng)
    (hp : g.phase = GamePhase.ModeSelect)
    (hml : (i.player1_left || i.player2_left) = false)
    (hmr : (i.player1_right || i.player2_right) = false)
    (h5 : g.last_system_one_player = i.system_one_player)
    (h6 : g.last_system_two_player = i.system_two_player)
    (h7 : g.last_confirm = (i.player1_a || i.player2_a)) :
    tick g i rng = g := by
  have hph : g.phase ≠ GamePhase.Playing := by
    rw [hp]
    intro hc
    cases hc
  rw [tick, hp]
  dsimp only
  rw [hml, hmr, h5, h6, h7]
  simp only [Bool.and_not_self, Bool.false_eq_true, if_false]
  rw [← h5, ← h6, ← h7]
  show GameState.update g rng = g
  rw [GameState.update, if_pos hph]

/-- A GameOver tick with no fresh edge on the system buttons or confirm is
the identity, provided the previous-input flags already record the held
buttons. -/
theorem tick_gameOver_fix (g : GameState) (i : InputSnapshot) (rng : Rng)
    (hp : g.phase = GamePhase.GameOver)
    (h5 : g.last_system_one_player = i.system_one_player)
    (h6 : g.last_system_two_player = i.system_two_player)
    (h7 : g.last_confirm = (i.player1_a || i.player2_a)) :
    tick g i rng = g := by
  have hph : g.phase ≠ GamePhase.Playing := by
    rw [hp]
    intro hc
    cases hc
  rw [tick, hp]
  dsimp only
  rw [h5, h6, h7]
  simp only [Bool.and_not_self, Bool.false_eq_true, if_false]
  rw [← h5, ← h6, ← h7]
  show GameState.update g rng = g
  rw [GameState.update, if_pos hph]

/-- The scheduler on a freshly reset round state: the frame counter becomes
1, the meter fills to 1 and nothing spawns, because 1 is far below the
effective interval 45. -/
theorem advanceSched_startlike (S : GameState) (rng : Rng) (hfra : S.frame_count = 0)
    (hdiff : S.difficulty_multiplier = 1) (hmet : S.spawn_meter = 0) :
    S.advanceSched rng = { S with frame_count := 1, spawn_meter := 1 } := by
  obtain ⟨n, objs, heq, hlt, hpos, hlen, -⟩ := schedulerSpec.1 S rng
  have hb : bumpedDifficulty S = 1 := by
    unfold bumpedDifficulty
    rw [hfra, hdiff]
    norm_num
  rw [hb] at heq hlt hpos hlen
  rw [hmet] at heq hlt hpos
  have hInt : effectiveInterval 1 = 45 := by
    unfold effectiveInterval BASE_SPAWN_INTERVAL
    norm_num
  rw [hInt] at heq hlt hpos
  have hn : n = 0 := by
    rcases hpos with h0 | h0
    · exact h0
    · by_contra hne
      have h1 : (1 : ℚ) ≤ (n : ℚ) := by exact_mod_cast Nat.one_le_iff_ne_zero.mpr hne
      nlinarith
  subst hn
  have hzero : (if (2 : ℚ) ≤ 1 then extraCount rng 0 0 else 0) = 0 := by
    rw [if_neg (by norm_num)]
  rw [hzero] at hlen
  have hobjs : objs = [] := List.eq_nil_of_length_eq_zero (by simpa using hlen)
  subst hobjs
  rw [heq, hfra]
  norm_num
  exact hdiff.symm

theorem fresh_ne_nil (m : PlayerMode) :
    (List.range m.player_count).map (fun idx => PlayerSlot.new idx m.player_count) ≠ [] := by
  cases m <;> simp [PlayerMode.player_count]

/-- A full tick's update on a freshly reset Playing state: the phase stays
Playing (nothing can die on the first tick: no objects exist yet) and mode
and menu selection are untouched. -/
theorem update_startlike (S : GameState) (rng : Rng) (hph : S.phase = GamePhase.Playing)
    (hobj : S.objects = []) (hfra : S.frame_count = 0) (hdiff : S.difficulty_multiplier = 1)
    (hmet : S.spawn_meter = 0) (hne : S.players ≠ []) (hhp : ∀ s ∈ S.players, 0 < s.health) :
    (S.update rng).phase = GamePhase.Playing ∧ (S.update rng).mode = S.mode ∧
      (S.update rng).menu_selection = S.menu_selection := by
  have hfall : fallStep { S with frame_count := 1, spawn_meter := 1 } = { S with frame_count := 1, spawn_meter := 1, objects := ([] : List FallingObject) } := by
    unfold fallStep
    rw [show ({ S with frame_count := 1, spawn_meter := 1 } : GameState).objects = S.objects from rfl, hobj]
    rfl
  have hne2 : ({ S with frame_count := 1, spawn_meter := 1, objects := ([] : List FallingObject) } : GameState).players ≠ [] := hne
  have hDne : (deadStep (consumeStep { S with frame_count := 1, spawn_meter := 1, objects := ([] : List FallingObject) })).players ≠ [] := by
    show (S.players.filter (fun s => decide (0 < s.health))) ≠ []
    rw [List.filter_eq_self.mpr (fun s hs => decide_eq_true (hhp s hs))]
    exact hne
  have hsig : signalStep (deadStep (consumeStep { S with frame_count := 1, spawn_meter := 1, objects := ([] : List FallingObject) })) = deadStep (consumeStep { S with frame_count := 1, spawn_meter := 1, objects := ([] : List FallingObject) }) := by
    rw [signalStep, if_neg (fun hc => hDne hc.1)]
  have hupd : S.update rng = offscreenStep (signalStep (deadStep (consumeStep { S with frame_count := 1, spawn_meter := 1, objects := ([] : List FallingObject) }))) := by
    rw [GameState.update, if_neg (by rw [hph]; intro hc; exact hc rfl),
      advanceSched_startlike S rng hfra hdiff hmet, hfall, GameState.check_collisions,
      if_neg hne2]
  rw [hupd, hsig]
  exact ⟨hph, rfl, rfl⟩

/-- A fresh system-two edge in ModeSelect starts a two-player round at once,
regardless of the highlighted selection. -/
theorem tick_modeSelect_sys2 (g : GameState) (i : InputSnapshot) (rng : Rng)
    (hp : g.phase = GamePhase.ModeSelect)
    (h2 : (i.system_two_player && !g.last_system_two_player) = true) :
    (tick g i rng).phase = GamePhase.Playing ∧ (tick g i rng).mode = PlayerMode.Two := by
  rw [tick, hp]
  dsimp only
  rw [h2, if_pos rfl]
  constructor
  · exact (update_startlike _ rng rfl rfl rfl rfl rfl (fresh_ne_nil PlayerMode.Two)
      (fun s hs => (fresh_players_inv PlayerMode.Two s hs).1)).1
  · exact (update_startlike _ rng rfl rfl rfl rfl rfl (fresh_ne_nil PlayerMode.Two)
      (fun s hs => (fresh_players_inv PlayerMode.Two s hs).1)).2.1

/-- A fresh system-one edge in ModeSelect (with no simultaneous system-two
edge) starts a single-player round at once. -/
theorem tick_modeSelect_sys1 (g : GameState) (i : InputSnapshot) (rng : Rng)
    (hp : g.phase = GamePhase.ModeSelect)
    (h2f : (i.system_two_player && !g.last_system_two_player) = false)
    (h1 : (i.system_one_player && !g.last_system_one_player) = true) :
    (tick g i rng).phase = GamePhase.Playing ∧ (tick g i rng).mode = PlayerMode.Single := by
  rw [tick, hp]
  dsimp only
  rw [h2f]
  simp only [Bool.false_eq_true, if_false]
  rw [h1, if_pos rfl]
  constructor
  · exact (update_startlike _ rng rfl rfl rfl rfl rfl (fresh_ne_nil PlayerMode.Single)
      (fun s hs => (fresh_players_inv PlayerMode.Single s hs).1)).1
  · exact (update_startlike _ rng rfl rfl rfl rfl rfl (fresh_ne_nil PlayerMode.Single)
      (fun s hs => (fresh_players_inv PlayerMode.Single s hs).1)).2.1

/-- A fresh confirm edge in ModeSelect (with no system edge and no held
direction) starts a round in the highlighted mode. -/
theorem tick_modeSelect_confirm (g : GameState) (i : InputSnapshot) (rng : Rng)
    (hp : g.phase = GamePhase.ModeSelect)
    (hml : (i.player1_left || i.player2_left) = false)
    (hmr : (i.player1_right || i.player2_right) = false)
    (h2f : (i.system_two_player && !g.last_system_two_player) = false)
    (h1f : (i.system_one_player && !g.last_system_one_player) = false)
    (hc : ((i.player1_a || i.player2_a) && !g.last_confirm) = true) :
    (tick g i rng).phase = GamePhase.Playing ∧ (tick g i rng).mode = g.menu_selection := by
  rw [tick, hp]
  dsimp only
  rw [hml, hmr, h2f, h1f]
  simp only [Bool.false_eq_true, if_false]
  rw [hc, if_pos rfl]
  constructor
  · exact (update_startlike _ rng rfl rfl rfl rfl rfl (fresh_ne_nil g.menu_selection)
      (fun s hs => (fresh_players_inv g.menu_selection s hs).1)).1
  · exact (update_startlike _ rng rfl rfl rfl rfl rfl (fresh_ne_nil g.menu_selection)
      (fun s hs => (fresh_players_inv g.menu_selection s hs).1)).2.1

/-- A fresh confirm edge in GameOver (with no system edge) returns to the
menu with the selection reset to single-player. -/
theorem tick_gameOver_confirm (g : GameState) (i : InputSnapshot) (rng : Rng)
    (hp : g.phase = GamePhase.GameOver)
    (h2f : (i.system_two_player && !g.last_system_two_player) = false)
    (h1f : (i.system_one_player && !g.last_system_one_player) = false)
    (hc : ((i.player1_a || i.player2_a) && !g.last_confirm) = true) :
    (tick g i rng).phase = GamePhase.ModeSelect ∧
      (tick g i rng).menu_selection = PlayerMode.Single := by
  rw [tick, hp]
  dsimp only
  rw [h2f, h1f]
  simp only [Bool.false_eq_true, if_false]
  rw [hc, if_pos rfl]
  rw [GameState.update]
  split_ifs with hcond
  · exact ⟨rfl, rfl⟩
  · exact absurd (show GamePhase.ModeSelect ≠ GamePhase.Playing by
      intro hc2
      cases hc2) hcond

/-- A fresh system-two edge in GameOver restarts a two-player round. -/
theorem tick_gameOver_sys2 (g : GameState) (i : InputSnapshot) (rng : Rng)
    (hp : g.phase = GamePhase.GameOver)
    (h2 : (i.system_two_player && !g.last_system_two_player) = true) :
    (tick g i rng).phase = GamePhase.Playing ∧ (tick g i rng).mode = PlayerMode.Two := by
  rw [tick, hp]
  dsimp only
  rw [h2, if_pos rfl]
  constructor
  · exact (update_startlike _ rng rfl rfl rfl rfl rfl (fresh_ne_nil PlayerMode.Two)
      (fun s hs => (fresh_players_inv PlayerMode.Two s hs).1)).1
  · exact (update_startlike _ rng rfl rfl rfl rfl rfl (fresh_ne_nil PlayerMode.Two)
      (fun s hs => (fresh_players_inv PlayerMode.Two s hs).1)).2.1

/-- The ModeSelect menu selection is set from the held direction buttons on
every tick: right wins over left, and with neither held it is unchanged.
This holds with no edge condition whatsoever. -/
theorem start_new_game_menu (g : GameState) (m : PlayerMode) :
    (g.start_new_game m).menu_selection = g.menu_selection := rfl

theorem tick_modeSelect_menu (g : GameState) (i : InputSnapshot) (rng : Rng)
    (hp : g.phase = GamePhase.ModeSelect) :
    (tick g i rng).menu_selection =
      (if (i.player1_right || i.player2_right) = true then PlayerMode.Two
       else if (i.player1_left || i.player2_left) = true then PlayerMode.Single
       else g.menu_selection) := by
  rw [tick, hp]
  dsimp only
  split_ifs <;> rw [update_menu] <;> simp_all [start_new_game_menu]


/-! Claim C1. -/

/-- Counterexample to claim C1 as stated.  The confirm action of NameEntry is
level-triggered, not edge-triggered: starting from a state in which confirm
was not held on the previous tick (so the first tick is a held-edge) and two
scores are pending, holding confirm across two consecutive ticks commits two
names to the leaderboard, not one. -/
theorem claim_C1_counterexample :
    demoNameEntry.last_confirm = false ∧
    demoNameEntry.pending_scores.length = 2 ∧
    (tick (tick demoNameEntry inpConfirm trivRng) inpConfirm trivRng).leaderboard.length = 2 := by
  refine ⟨rfl, rfl, ?_⟩
  decide

theorem confirmStep_commit (g : GameState) (i : InputSnapshot) (ha : i.player1_a = true)
    (pi : ℕ) (sc : ℤ) (rest : List (ℕ × ℤ)) (hpend : g.pending_scores = (pi, sc) :: rest) :
    confirmStep g i =
      if rest = [] then
        { g with leaderboard := addEntryList g.leaderboard ⟨sc, g.mode, g.current_name⟩, pending_scores := rest, phase := GamePhase.GameOver }
      else
        { g with leaderboard := addEntryList g.leaderboard ⟨sc, g.mode, g.current_name⟩, pending_scores := rest, current_name := ['A', 'A', 'A'], name_entry_index := 0 } := by
  unfold confirmStep GameState.add_to_leaderboard
  rw [ha, hpend, if_pos rfl]

theorem handle_eq (g : GameState) (i : InputSnapshot) :
    g.handle_name_entry i =
      { confirmStep { g with current_name := nameAfterNav g i, name_entry_index := cursorAfterNav g i } i with last_up := i.player1_up, last_down := i.player1_down, last_left := i.player1_left, last_right := i.player1_right } := rfl

/-- Full description of a NameEntry tick on which confirm is held: the first
pending score is committed to the leaderboard under the navigated name, the
pending entry is popped, and the phase either moves to GameOver (no pending
entries left) or stays in NameEntry with the name reset to AAA and the
cursor reset to 0. -/
theorem tick_nameEntry_commit (g : GameState) (i : InputSnapshot) (rng : Rng)
    (hp : g.phase = GamePhase.NameEntry) (ha : i.player1_a = true)
    (pi : ℕ) (sc : ℤ) (rest : List (ℕ × ℤ)) (hpend : g.pending_scores = (pi, sc) :: rest) :
    (tick g i rng).leaderboard = addEntryList g.leaderboard ⟨sc, g.mode, nameAfterNav g i⟩ ∧
    (tick g i rng).pending_scores = rest ∧
    (rest = [] → (tick g i rng).phase = GamePhase.GameOver) ∧
    (rest ≠ [] → (tick g i rng).phase = GamePhase.NameEntry ∧
      (tick g i rng).current_name = ['A', 'A', 'A'] ∧
      (tick g i rng).name_entry_index = 0) := by
  have hcom := confirmStep_commit { g with current_name := nameAfterNav g i, name_entry_index := cursorAfterNav g i } i ha pi sc rest hpend
  rw [tick_nameEntry g i rng hp, handle_eq, hcom]
  by_cases hr : rest = []
  · rw [if_pos hr]
    exact ⟨rfl, rfl, fun _ => rfl, fun hcon => absurd hr hcon⟩
  · rw [if_neg hr]
    exact ⟨rfl, rfl, fun hcon => absurd hcon hr, fun _ => ⟨hp, rfl, rfl⟩⟩

/-- Claim C1, amended.  As stated the claim fails (claim_C1_counterexample):
two of the listed actions are level-triggered, not edge-triggered.  Amended:
(1) the name-entry navigation buttons up, down, left, right are
edge-triggered: with the button already recorded as held, every further held
tick is the identity, so holding for N ticks acts exactly once; (2) the
system-select and confirm buttons of ModeSelect and GameOver are
edge-triggered: with the corresponding previous-input flag set, a held tick
is the identity, and a fresh edge performs its action (start round or return
to menu); (3) by contrast, the name-entry confirm commits on every tick it
is held while scores are pending, and ModeSelect left and right set the menu
selection on every tick they are held, with no edge condition. -/
theorem claim_C1 :
    (∀ (g : GameState) (rng : Rng), g.phase = GamePhase.NameEntry →
      tick (tick g inpUp rng) inpUp rng = tick g inpUp rng) ∧
    (∀ (g : GameState) (rng : Rng), g.phase = GamePhase.NameEntry →
      tick (tick g inpDown rng) inpDown rng = tick g inpDown rng) ∧
    (∀ (g : GameState) (rng : Rng), g.phase = GamePhase.NameEntry →
      tick (tick g inpLeft rng) inpLeft rng = tick g inpLeft rng) ∧
    (∀ (g : GameState) (rng : Rng), g.phase = GamePhase.NameEntry →
      tick (tick g inpRight rng) inpRight rng = tick g inpRight rng) ∧
    (∀ (g : GameState) (rng : Rng), g.phase = GamePhase.ModeSelect →
      g.last_system_one_player = true → g.last_system_two_player = false →
      g.last_confirm = false → tick g inpSys1 rng = g) ∧
    (∀ (g : GameState) (rng : Rng), g.phase = GamePhase.ModeSelect →
      g.last_system_two_player = true → g.last_system_one_player = false →
      g.last_confirm = false → tick g inpSys2 rng = g) ∧
    (∀ (g : GameState) (rng : Rng), g.phase = GamePhase.ModeSelect →
      g.last_confirm = true → g.last_system_one_player = false →
      g.last_system_two_player = false → tick g inpConfirm rng = g) ∧
    (∀ (g : GameState) (rng : Rng), g.phase = GamePhase.GameOver →
      g.last_system_one_player = true → g.last_system_two_player = false →
      g.last_confirm = false → tick g inpSys1 rng = g) ∧
    (∀ (g : GameState) (rng : Rng), g.phase = GamePhase.GameOver →
      g.last_system_two_player = true → g.last_system_one_player = false →
      g.last_confirm = false → tick g inpSys2 rng = g) ∧
    (∀ (g : GameState) (rng : Rng), g.phase = GamePhase.GameOver →
      g.last_confirm = true → g.last_system_one_player = false →
      g.last_system_two_player = false → tick g inpConfirm rng = g) ∧
    (∀ (g : GameState) (rng : Rng), g.phase = GamePhase.ModeSelect →
      g.last_system_one_player = false →
      (tick g inpSys1 rng).phase = GamePhase.Playing ∧
      (tick g inpSys1 rng).mode = PlayerMode.Single) ∧
    (∀ (g : GameState) (rng : Rng), g.phase = GamePhase.GameOver →
      g.last_confirm = false → (tick g inpConfirm rng).phase = GamePhase.ModeSelect) ∧
    (∀ (g : GameState) (rng : Rng) (pi : ℕ) (sc : ℤ) (rest : List (ℕ × ℤ)),
      g.phase = GamePhase.NameEntry → g.pending_scores = (pi, sc) :: rest →
      (tick g inpConfirm rng).pending_scores = rest) ∧
    (∀ (g : GameState) (rng : Rng), g.phase = GamePhase.ModeSelect →
      (tick g inpLeft rng).menu_selection = PlayerMode.Single) ∧
    (∀ (g : GameState) (rng : Rng), g.phase = GamePhase.ModeSelect →
      (tick g inpRight rng).menu_selection = PlayerMode.Two) := by
  have hfix : ∀ (i : InputSnapshot), i.player1_a = false →
      ∀ (g : GameState) (rng : Rng), g.phase = GamePhase.NameEntry →
      tick (tick g i rng) i rng = tick g i rng := by
    intro i ha g rng hp
    obtain ⟨hph, hnm, hcu, h1, h2, h3, h4, h5, h6, h7, -, -⟩ :=
      tick_nameEntry_image g i rng hp ha
    refine tick_nameEntry_fix _ i rng hph ha ?_ h1 h2 h3 h4 h5 h6 h7
    rw [hnm]
    exact nameAfterNav_length g i
  refine ⟨hfix inpUp rfl, hfix inpDown rfl, hfix inpLeft rfl, hfix inpRight rfl,
    ?_, ?_, ?_, ?_, ?_, ?_, ?_, ?_, ?_, ?_, ?_⟩
  · intro g rng hp hl1 hl2 hlc
    exact tick_modeSelect_fix g inpSys1 rng hp rfl rfl hl1 hl2 hlc
  · intro g rng hp hl2 hl1 hlc
    exact tick_modeSelect_fix g inpSys2 rng hp rfl rfl hl1 hl2 hlc
  · intro g rng hp hlc hl1 hl2
    exact tick_modeSelect_fix g inpConfirm rng hp rfl rfl hl1 hl2 hlc
  · intro g rng hp hl1 hl2 hlc
    exact tick_gameOver_fix g inpSys1 rng hp hl1 hl2 hlc
  · intro g rng hp hl2 hl1 hlc
    exact tick_gameOver_fix g inpSys2 rng hp hl1 hl2 hlc
  · intro g rng hp hlc hl1 hl2
    exact tick_gameOver_fix g inpConfirm rng hp hl1 hl2 hlc
  · intro g rng hp hl1
    exact tick_modeSelect_sys1 g inpSys1 rng hp rfl (by rw [hl1]; rfl)
  · intro g rng hp hlc
    exact (tick_gameOver_confirm g inpConfirm rng hp rfl rfl (by rw [hlc]; rfl)).1
  · intro g rng pi sc rest hp hpend
    exact (tick_nameEntry_commit g inpConfirm rng hp rfl pi sc rest hpend).2.1
  · intro g rng hp
    rw [tick_modeSelect_menu g inpLeft rng hp]
    rfl
  · intro g rng hp
    rw [tick_modeSelect_menu g inpRight rng hp]
    rfl

/-- Witness for claim_C1 at the concrete states demoNameEntry, demoMenu and
demoOver. -/
theorem claim_C1_witness :
    tick (tick demoNameEntry inpUp trivRng) inpUp trivRng = tick demoNameEntry inpUp trivRng ∧
    tick { demoMenu with last_system_one_player := true } inpSys1 trivRng =
      { demoMenu with last_system_one_player := true } ∧
    (tick demoMenu inpSys1 trivRng).phase = GamePhase.Playing ∧
    (tick demoOver inpConfirm trivRng).phase = GamePhase.ModeSelect := by
  refine ⟨claim_C1.1 demoNameEntry trivRng rfl, ?_, ?_, ?_⟩
  · exact claim_C1.2.2.2.2.1 { demoMenu with last_system_one_player := true } trivRng
      rfl rfl rfl rfl
  · exact (claim_C1.2.2.2.2.2.2.2.2.2.2.1 demoMenu trivRng rfl rfl).1
  · exact claim_C1.2.2.2.2.2.2.2.2.2.2.2.1 demoOver trivRng rfl rfl

/-! Claim C5. -/

/-- Counterexample to claim C5 as stated.  The menu selection is
level-triggered, not edge-triggered: hold left and right together for one
tick (right wins, selection becomes Two), then keep holding left on the next
tick.  Left does not transition from not-held to held on the second tick,
yet the selection changes to Single. -/
theorem claim_C5_counterexample :
    inpLeftRight.player1_left = true ∧ inpLeft.player1_left = true ∧
    (tick demoMenu inpLeftRight trivRng).menu_selection = PlayerMode.Two ∧
    (tick (tick demoMenu inpLeftRight trivRng) inpLeft trivRng).menu_selection =
      PlayerMode.Single := by
  decide

/-- Claim C5, amended.  As stated the claim fails (claim_C5_counterexample):
the menu selection follows the currently held left/right buttons each tick
(right wins over left), with no edge condition.  The rest of the claim
holds: a system-two edge starts a two-player round at once, a system-one
edge (with no system-two edge) starts a single-player round at once, a
confirm edge (with no system edge and no held menu button) starts a round
in the highlighted mode, and starting a round resets the tick counter,
difficulty multiplier and spawn accumulator, clears the final-scores list
and the falling objects, sets the chosen mode, moves the phase to Playing,
and allocates player_count fresh slots whose k-th slot is centred at
fieldWidth/(count+1)*(k+1) with score 0 and health 3. -/
theorem claim_C5 :
    (∀ (g : GameState) (i : InputSnapshot) (rng : Rng), g.phase = GamePhase.ModeSelect →
      (tick g i rng).menu_selection =
        (if (i.player1_right || i.player2_right) = true then PlayerMode.Two
         else if (i.player1_left || i.player2_left) = true then PlayerMode.Single
         else g.menu_selection)) ∧
    (∀ (g : GameState) (i : InputSnapshot) (rng : Rng), g.phase = GamePhase.ModeSelect →
      (i.system_two_player && !g.last_system_two_player) = true →
      (tick g i rng).phase = GamePhase.Playing ∧ (tick g i rng).mode = PlayerMode.Two) ∧
    (∀ (g : GameState) (i : InputSnapshot) (rng : Rng), g.phase = GamePhase.ModeSelect →
      (i.system_two_player && !g.last_system_two_player) = false →
      (i.system_one_player && !g.last_system_one_player) = true →
      (tick g i rng).phase = GamePhase.Playing ∧ (tick g i rng).mode = PlayerMode.Single) ∧
    (∀ (g : GameState) (i : InputSnapshot) (rng : Rng), g.phase = GamePhase.ModeSelect →
      (i.player1_left || i.player2_left) = false →
      (i.player1_right || i.player2_right) = false →
      (i.system_two_player && !g.last_system_two_player) = false →
      (i.system_one_player && !g.last_system_one_player) = false →
      ((i.player1_a || i.player2_a) && !g.last_confirm) = true →
      (tick g i rng).phase = GamePhase.Playing ∧ (tick g i rng).mode = g.menu_selection) ∧
    (∀ (g : GameState) (m : PlayerMode),
      (g.start_new_game m).frame_count = 0 ∧
      (g.start_new_game m).difficulty_multiplier = 1 ∧
      (g.start_new_game m).spawn_meter = 0 ∧
      (g.start_new_game m).final_scores = [] ∧
      (g.start_new_game m).objects = [] ∧
      (g.start_new_game m).phase = GamePhase.Playing ∧
      (g.start_new_game m).mode = m ∧
      (g.start_new_game m).players.length = m.player_count ∧
      ∀ k, k < m.player_count →
        (g.start_new_game m).players[k]? =
          some { player := { x := CANVAS_WIDTH / ((m.player_count : ℚ) + 1) * ((k : ℚ) + 1) - PLAYER_WIDTH / 2, y := CANVAS_HEIGHT - PLAYER_HEIGHT - 20 }, score := 0, health := 3, player_index := k }) := by
  refine ⟨tick_modeSelect_menu, ?_, ?_, ?_, ?_⟩
  · intro g i rng hp h2
    exact tick_modeSelect_sys2 g i rng hp h2
  · intro g i rng hp h2f h1
    exact tick_modeSelect_sys1 g i rng hp h2f h1
  · intro g i rng hp hml hmr h2f h1f hc
    exact tick_modeSelect_confirm g i rng hp hml hmr h2f h1f hc
  · intro g m
    refine ⟨rfl, rfl, rfl, rfl, rfl, rfl, rfl, ?_, ?_⟩
    · show ((List.range m.player_count).map
        (fun idx => PlayerSlot.new idx m.player_count)).length = m.player_count
      rw [List.length_map, List.length_range]
    · intro k hk
      show ((List.range m.player_count).map
        (fun idx => PlayerSlot.new idx m.player_count))[k]? = _
      rw [List.getElem?_map, List.getElem?_range hk]
      rfl

/-- Witness for claim_C5 at the concrete state demoMenu. -/
theorem claim_C5_witness :
    (tick demoMenu inpRight trivRng).menu_selection = PlayerMode.Two ∧
    (tick demoMenu inpSys2 trivRng).phase = GamePhase.Playing ∧
    (tick demoMenu inpSys1 trivRng).mode = PlayerMode.Single ∧
    (tick demoMenu inpConfirm trivRng).mode = demoMenu.menu_selection ∧
    (demoMenu.start_new_game PlayerMode.Two).players.length = 2 := by
  refine ⟨?_, ?_, ?_, ?_, ?_⟩
  · rw [claim_C5.1 demoMenu inpRight trivRng rfl]
    rfl
  · exact (claim_C5.2.1 demoMenu inpSys2 trivRng rfl rfl).1
  · exact (claim_C5.2.2.1 demoMenu inpSys1 trivRng rfl rfl rfl).2
  · exact (claim_C5.2.2.2.1 demoMenu inpConfirm trivRng rfl rfl rfl rfl rfl rfl).2
  · exact (claim_C5.2.2.2.2 demoMenu PlayerMode.Two).2.2.2.2.2.2.2.1

/-! Claim C6. -/

theorem nameAfterNav_up (g : GameState) (i : InputSnapshot)
    (hup : (i.player1_up && !g.last_up) = true)
    (hdn : (i.player1_down && !g.last_down) = false)
    (hname : g.current_name.length = 3) :
    nameAfterNav g i =
      g.current_name.set (min (g.name_entry_index % 3) 2)
        (prevLetterChar ((g.current_name.get? (min (g.name_entry_index % 3) 2)).getD 'A')) := by
  unfold nameAfterNav
  rw [padName_take_of_length hname, hup, hdn]
  simp only [if_true, Bool.false_eq_true, if_false]
  rw [if_pos (by rw [hname]; exact lt_of_le_of_lt (min_le_right _ 2) (by norm_num))]
  exact List.take_of_length_le (le_of_eq (by rw [List.length_set, hname]))

theorem nameAfterNav_down (g : GameState) (i : InputSnapshot)
    (hup : (i.player1_up && !g.last_up) = false)
    (hdn : (i.player1_down && !g.last_down) = true)
    (hname : g.current_name.length = 3) :
    nameAfterNav g i =
      g.current_name.set (min (g.name_entry_index % 3) 2)
        (nextLetterChar ((g.current_name.get? (min (g.name_entry_index % 3) 2)).getD 'A')) := by
  unfold nameAfterNav
  rw [padName_take_of_length hname, hup, hdn]
  simp only [if_true, Bool.false_eq_true, if_false]
  rw [if_pos (by rw [hname]; exact lt_of_le_of_lt (min_le_right _ 2) (by norm_num))]
  exact List.take_of_length_le (le_of_eq (by rw [List.length_set, hname]))

theorem cursorAfterNav_left (g : GameState) (i : InputSnapshot)
    (hlf : (i.player1_left && !g.last_left) = true)
    (hrt : (i.player1_right && !g.last_right) = false) :
    cursorAfterNav g i = g.name_entry_index - 1 := by
  unfold cursorAfterNav
  rw [hlf, hrt]
  simp only [if_true, Bool.false_eq_true, if_false]
  split_ifs <;> omega

theorem cursorAfterNav_right (g : GameState) (i : InputSnapshot)
    (hlf : (i.player1_left && !g.last_left) = false)
    (hrt : (i.player1_right && !g.last_right) = true)
    (hidx : g.name_entry_index ≤ 2) :
    cursorAfterNav g i = min (g.name_entry_index + 1) 2 := by
  unfold cursorAfterNav
  rw [hlf, hrt]
  simp only [Bool.false_eq_true, if_false, if_true]
  split_ifs <;> omega

/-- Claim C6: name-entry navigation and commit.  An up edge (down held-state
unchanged) replaces the letter at the clamped cursor with its predecessor in
the 26-letter cycle, a down edge with its successor, and these letter maps
wrap Z-to-A and A-to-Z over the whole alphabet; a left edge moves the cursor
one position down clamped at 0, a right edge one position up clamped at 2; a
held confirm commits the (possibly just-edited) 3-letter name with the first
pending score, pops it, and resets the name to AAA (more entries pending) or
moves to GameOver (none left); with no up/down edge the committed name is
exactly the stored 3-letter name; and Scenario E holds concretely: from name
AAA, cursor 0, pending score 100, a down edge makes the name BAA and a
following confirm commits (100, BAA) and ends in GameOver. -/
theorem claim_C6 :
    (∀ k, k < 26 → prevLetterChar (Char.ofNat (65 + k)) = Char.ofNat (65 + (k + 25) % 26)) ∧
    (∀ k, k < 26 → nextLetterChar (Char.ofNat (65 + k)) = Char.ofNat (65 + (k + 1) % 26)) ∧
    (∀ (g : GameState) (i : InputSnapshot) (rng : Rng), g.phase = GamePhase.NameEntry →
      i.player1_a = false → (i.player1_up && !g.last_up) = true →
      (i.player1_down && !g.last_down) = false → g.current_name.length = 3 →
      (tick g i rng).current_name =
        g.current_name.set (min (g.name_entry_index % 3) 2)
          (prevLetterChar ((g.current_name.get? (min (g.name_entry_index % 3) 2)).getD 'A'))) ∧
    (∀ (g : GameState) (i : InputSnapshot) (rng : Rng), g.phase = GamePhase.NameEntry →
      i.player1_a = false → (i.player1_up && !g.last_up) = false →
      (i.player1_down && !g.last_down) = true → g.current_name.length = 3 →
      (tick g i rng).current_name =
        g.current_name.set (min (g.name_entry_index % 3) 2)
          (nextLetterChar ((g.current_name.get? (min (g.name_entry_index % 3) 2)).getD 'A'))) ∧
    (∀ (g : GameState) (i : InputSnapshot) (rng : Rng), g.phase = GamePhase.NameEntry →
      i.player1_a = false → (i.player1_left && !g.last_left) = true →
      (i.player1_right && !g.last_right) = false →
      (tick g i rng).name_entry_index = g.name_entry_index - 1) ∧
    (∀ (g : GameState) (i : InputSnapshot) (rng : Rng), g.phase = GamePhase.NameEntry →
      i.player1_a = false → (i.player1_left && !g.last_left) = false →
      (i.player1_right && !g.last_right) = true → g.name_entry_index ≤ 2 →
      (tick g i rng).name_entry_index = min (g.name_entry_index + 1) 2) ∧
    (∀ (g : GameState) (i : InputSnapshot) (rng : Rng) (pi : ℕ) (sc : ℤ)
      (rest : List (ℕ × ℤ)), g.phase = GamePhase.NameEntry → i.player1_a = true →
      g.pending_scores = (pi, sc) :: rest →
      (tick g i rng).leaderboard = addEntryList g.leaderboard ⟨sc, g.mode, nameAfterNav g i⟩ ∧
      (tick g i rng).pending_scores = rest ∧
      (rest = [] → (tick g i rng).phase = GamePhase.GameOver) ∧
      (rest ≠ [] → (tick g i rng).phase = GamePhase.NameEntry ∧
        (tick g i rng).current_name = ['A', 'A', 'A'] ∧
        (tick g i rng).name_entry_index = 0)) ∧
    (∀ (g : GameState) (i : InputSnapshot), (i.player1_up && !g.last_up) = false →
      (i.player1_down && !g.last_down) = false → g.current_name.length = 3 →
      nameAfterNav g i = g.current_name) ∧
    ((tick demoEntryOne inpDown trivRng).current_name = ['B', 'A', 'A'] ∧
      (tick (tick demoEntryOne inpDown trivRng) inpConfirm trivRng).leaderboard =
        [⟨100, PlayerMode.Single, ['B', 'A', 'A']⟩] ∧
      (tick (tick demoEntryOne inpDown trivRng) inpConfirm trivRng).phase =
        GamePhase.GameOver) := by
  refine ⟨by decide, by decide, ?_, ?_, ?_, ?_, ?_, nameAfterNav_still, by decide⟩
  · intro g i rng hp ha hup hdn hname
    rw [(tick_nameEntry_image g i rng hp ha).2.1]
    exact nameAfterNav_up g i hup hdn hname
  · intro g i rng hp ha hup hdn hname
    rw [(tick_nameEntry_image g i rng hp ha).2.1]
    exact nameAfterNav_down g i hup hdn hname
  · intro g i rng hp ha hlf hrt
    rw [(tick_nameEntry_image g i rng hp ha).2.2.1]
    exact cursorAfterNav_left g i hlf hrt
  · intro g i rng hp ha hlf hrt hidx
    rw [(tick_nameEntry_image g i rng hp ha).2.2.1]
    exact cursorAfterNav_right g i hlf hrt hidx
  · intro g i rng pi sc rest hp ha hpend
    exact tick_nameEntry_commit g i rng hp ha pi sc rest hpend

/-- Witness for claim_C6 at concrete states. -/
theorem claim_C6_witness :
    prevLetterChar 'A' = 'Z' ∧
    nextLetterChar 'Z' = 'A' ∧
    (tick demoNameEntry inpUp trivRng).current_name = ['Z', 'A', 'A'] ∧
    (tick demoNameEntry inpDown trivRng).current_name = ['B', 'A', 'A'] ∧
    (tick { demoNameEntry with name_entry_index := 1 } inpLeft trivRng).name_entry_index = 0 ∧
    (tick demoNameEntry inpRight trivRng).name_entry_index = 1 ∧
    (tick demoNameEntry inpConfirm trivRng).pending_scores = [(1, 50)] := by
  refine ⟨?_, ?_, ?_, ?_, ?_, ?_, ?_⟩
  · have h := claim_C6.1 0 (by norm_num)
    simpa using h
  · have h := claim_C6.2.1 25 (by norm_num)
    simpa using h
  · rw [claim_C6.2.2.1 demoNameEntry inpUp trivRng rfl rfl rfl rfl rfl]
    decide
  · rw [claim_C6.2.2.2.1 demoNameEntry inpDown trivRng rfl rfl rfl rfl rfl]
    decide
  · rw [claim_C6.2.2.2.2.1 { demoNameEntry with name_entry_index := 1 } inpLeft trivRng
      rfl rfl rfl rfl]
    decide
  · rw [claim_C6.2.2.2.2.2.1 demoNameEntry inpRight trivRng rfl rfl rfl rfl (by decide)]
    decide
  · exact (claim_C6.2.2.2.2.2.2.1 demoNameEntry inpConfirm trivRng 0 100 [(1, 50)]
      rfl rfl rfl).2.1

/-! Claim C9. -/

/-- Claim C9: during NameEntry only player 1's confirm button commits a
name.  Any NameEntry tick on which player 1's confirm is not held leaves the
leaderboard and the pending-score queue unchanged even when player 2's
confirm is held; by contrast, in ModeSelect a fresh player-2 confirm starts
a round and in GameOver it returns to the menu, because those phases read
the OR of both players' confirm buttons. -/
theorem claim_C9 :
    (∀ (g : GameState) (i : InputSnapshot) (rng : Rng), g.phase = GamePhase.NameEntry →
      i.player1_a = false → i.player2_a = true →
      (tick g i rng).leaderboard = g.leaderboard ∧
      (tick g i rng).pending_scores = g.pending_scores) ∧
    (∀ (g : GameState) (rng : Rng), g.phase = GamePhase.ModeSelect →
      g.last_confirm = false → (tick g inpP2Confirm rng).phase = GamePhase.Playing) ∧
    (∀ (g : GameState) (rng : Rng), g.phase = GamePhase.GameOver →
      g.last_confirm = false → (tick g inpP2Confirm rng).phase = GamePhase.ModeSelect) := by
  refine ⟨?_, ?_, ?_⟩
  · intro g i rng hp ha _
    obtain ⟨-, -, -, -, -, -, -, -, -, -, hlb, hpend⟩ := tick_nameEntry_image g i rng hp ha
    exact ⟨hlb, hpend⟩
  · intro g rng hp hlc
    exact (tick_modeSelect_confirm g inpP2Confirm rng hp rfl rfl rfl rfl
      (by rw [hlc]; rfl)).1
  · intro g rng hp hlc
    exact (tick_gameOver_confirm g inpP2Confirm rng hp rfl rfl (by rw [hlc]; rfl)).1

/-- Witness for claim_C9 at the concrete states demoNameEntry, demoMenu and
demoOver. -/
theorem claim_C9_witness :
    (tick demoNameEntry inpP2Confirm trivRng).leaderboard = demoNameEntry.leaderboard ∧
    (tick demoMenu inpP2Confirm trivRng).phase = GamePhase.Playing ∧
    (tick demoOver inpP2Confirm trivRng).phase = GamePhase.ModeSelect := by
  refine ⟨?_, ?_, ?_⟩
  · exact (claim_C9.1 demoNameEntry inpP2Confirm trivRng rfl rfl rfl).1
  · exact claim_C9.2.1 demoMenu trivRng rfl rfl
  · exact claim_C9.2.2 demoOver trivRng rfl rfl

end BlackFriday